import Mathlib

/-!
# Order Intelligence Platform — dispatch core, formalized

A shallow embedding of the dispatch-priority core of the Order Intelligence
Platform: the Dispatch Priority Score (DPS) scorer and queue manager
(`DispatchPriorityQueue`), the batch-detection engine (`BatchOptimizer`), and
the pack-workflow state machine (`PackWorkflow`), each translated directly
from the JavaScript source.

Modeling conventions, used throughout:

* JavaScript numbers are modeled as `Rat` (the arithmetic the claims depend on
  is exact in IEEE doubles at every point used by a theorem below, so `Rat` is
  a faithful model there); epoch-millisecond timestamps are `Int`.
* A date-valued order field is modeled *after* string parsing: `DateField.missing`
  for an absent/`null`/`undefined` property (which fails required-field
  validation), `DateField.invalid` for a present value that `parseDate` cannot
  parse (including the empty string, which is present but falsy), and
  `DateField.valid ms` for a parseable date.  The string-level `parseDate`
  (ISO / `DD/MM/YYYY` handling) is JavaScript `Date` machinery; no claim
  depends on the concrete string syntax, only on the parseable/unparseable
  distinction.
* Similarly a numeric field is `NumField.missing` (absent/null), `NumField.nan`
  (present but `parseFloat` yields `NaN`), or `NumField.num v`.
* JS `Map`s are modeled as association lists where an insert prepends and a
  lookup takes the first hit (so an insert overwrites for lookup purposes);
  JS `Set`s of keys are modeled as lists with membership.
* Comparisons against possibly-`undefined` JS numbers follow JS semantics:
  any `<`/`>`/`<=`/`>=` comparison with `undefined` (`NaN`) is `false`.
* Logging, DOM/event/notification side effects, and `localStorage`
  persistence are external to the core and are not modeled.
-/

namespace OrderIntel

/-- JS `Math.round`: round half toward positive infinity. -/
def jsRound (q : Rat) : Int := ⌊q + 1/2⌋

/-- Milliseconds per hour, the divisor `1000 * 60 * 60` used by the scorer. -/
def msPerHour : Int := 1000 * 60 * 60

/-- A date-valued order field, as seen after `parseDate` (see the header note). -/
inductive DateField
  | missing
  | invalid
  | valid (ms : Int)
deriving DecidableEq

/-- The `parseDate` result on a date field: `null` for missing or unparseable input,
the epoch-millisecond timestamp otherwise. -/
def parseDate : DateField → Option Int
  | .valid ms => some ms
  | _ => none

/-- A numeric order field as seen by `parseFloat`. -/
inductive NumField
  | missing
  | nan
  | num (v : Rat)
deriving DecidableEq

/-- JS `parseFloat(order.orderTotal) || 0`: `NaN` (and `0` itself) falls back to `0`. -/
def jsOrderValue : NumField → Rat
  | .num v => v
  | _ => 0

/-- JS `a > x` where `a` may be `undefined`/`NaN` (comparison is then `false`). -/
def optGtB (a : Option Rat) (x : Rat) : Bool :=
  match a with
  | some v => decide (x < v)
  | none => false

/-- JS `a < x` where `a` may be `undefined`/`NaN`. -/
def optLtB (a : Option Rat) (x : Rat) : Bool :=
  match a with
  | some v => decide (v < x)
  | none => false

/-- JS `a >= x` where `a` may be `undefined`/`NaN`. -/
def optGeB (a : Option Rat) (x : Rat) : Bool :=
  match a with
  | some v => decide (x ≤ v)
  | none => false

namespace DispatchQueue

/-- An order as the `DispatchPriorityQueue` sees it.  `orderNumber` is `none`
when the property is absent/null.  `dpsScore = none` models an object without
a `dpsScore` own-property (`!order.hasOwnProperty('dpsScore')`); `isOverdue`
is only meaningful alongside a present `dpsScore` (both are written by the
same scoring pass).  The display-only `lastDPSCalculation` field is omitted. -/
structure Order where
  orderNumber : Option String
  orderDate : DateField
  expectedDispatch : DateField
  deliveryBy : DateField
  orderTotal : NumField
  dpsScore : Option Rat := none
  isOverdue : Bool := false
deriving DecidableEq

/-- Model of `validateOrderForDPS`: the four required fields must be present and
non-null/undefined (presence only — an unparseable but present value passes). -/
def validateOrderForDPS (o : Order) : Bool :=
  o.orderNumber.isSome &&
  !(o.orderDate == DateField.missing) &&
  !(o.expectedDispatch == DateField.missing) &&
  !(o.orderTotal == NumField.missing)

/-- Dispatch-deadline component score (weight 0.60). -/
def calculateDispatchDeadlineScore (now expectedDispatch : Int) : Rat :=
  let hoursUntilDispatch : Rat := ((expectedDispatch - now : Int) : Rat) / ((msPerHour : Int) : Rat)
  if hoursUntilDispatch ≤ 0 then 100
  else if hoursUntilDispatch ≤ 2 then 100
  else if hoursUntilDispatch ≤ 4 then 90
  else if hoursUntilDispatch ≤ 8 then 80
  else if hoursUntilDispatch ≤ 12 then 70
  else if hoursUntilDispatch ≤ 24 then 50
  else if hoursUntilDispatch ≤ 48 then 25
  else max 0 (25 - (hoursUntilDispatch - 48) / 10)

/-- Delivery-promise component score (weight 0.20); neutral 50 when
`deliveryBy` is missing or unparseable. -/
def calculateDeliveryPromiseScore (orderDate : Int) (deliveryBy : Option Int) : Rat :=
  match deliveryBy with
  | none => 50
  | some db =>
    let deliveryWindowHours : Rat := ((db - orderDate : Int) : Rat) / ((msPerHour : Int) : Rat)
    if deliveryWindowHours ≤ 24 then 100
    else if deliveryWindowHours ≤ 48 then 80
    else if deliveryWindowHours ≤ 72 then 60
    else if deliveryWindowHours ≤ 120 then 40
    else if deliveryWindowHours ≤ 168 then 20
    else 10

/-- Order-age component score (weight 0.10). -/
def calculateOrderAgeScore (now orderDate : Int) : Rat :=
  let ageHours : Rat := ((now - orderDate : Int) : Rat) / ((msPerHour : Int) : Rat)
  if ageHours ≤ 2 then 10
  else if ageHours ≤ 6 then 20
  else if ageHours ≤ 12 then 30
  else if ageHours ≤ 24 then 50
  else if ageHours ≤ 48 then 70
  else if ageHours ≤ 72 then 85
  else 100

/-- Order-value component score (weight 0.10). -/
def calculateOrderValueScore (orderValue : Rat) : Rat :=
  if orderValue ≤ 0 then 0
  else if orderValue ≤ 25 then 10
  else if orderValue ≤ 50 then 20
  else if orderValue ≤ 100 then 30
  else if orderValue ≤ 250 then 50
  else if orderValue ≤ 500 then 70
  else if orderValue ≤ 1000 then 85
  else 100

/-- The uncached scoring core of `calculateDPS`: weighted sum of the four
component scores, rounded to 2 decimal places and clamped to `[0, 100]`. -/
def computeDPS (now orderDate expectedDispatch : Int) (deliveryBy : Option Int)
    (orderValue : Rat) : Rat :=
  let dispatchDeadlineScore := calculateDispatchDeadlineScore now expectedDispatch
  let deliveryPromiseScore := calculateDeliveryPromiseScore orderDate deliveryBy
  let orderAgeScore := calculateOrderAgeScore now orderDate
  let orderValueScore := calculateOrderValueScore orderValue
  let dpsScore :=
    dispatchDeadlineScore * 0.6 + deliveryPromiseScore * 0.2 +
    orderAgeScore * 0.1 + orderValueScore * 0.1
  max 0 (min 100 (((jsRound (dpsScore * 100) : Int) : Rat) / 100))

/-- A cached score with the time it was computed. -/
structure CacheEntry where
  score : Rat
  timestamp : Int
deriving DecidableEq

/-- Cache key: `` `${order.orderNumber}_${hour}` ``. -/
abbrev CacheKey := Option String × Int

/-- The DPS calculation cache (a JS `Map`, see the header note). -/
abbrev DPSCache := List (CacheKey × CacheEntry)

/-- Cache TTL: 5 minutes in milliseconds. -/
def cacheExpiry : Int := 5 * 60 * 1000

/-- Model of `getCacheKey`: order number paired with `Math.floor(now / 3600000)`. -/
def getCacheKey (o : Order) (now : Int) : CacheKey :=
  (o.orderNumber, Int.fdiv now msPerHour)

/-- A `Map.get`-style lookup (first hit wins, matching insert-by-prepend). -/
def cacheFind (c : DPSCache) (k : CacheKey) : Option CacheEntry :=
  (c.find? (fun e => e.1 == k)).map (·.2)

/-- JS `Map.set`: prepend, so that later lookups see the new entry. -/
def cacheSet (c : DPSCache) (k : CacheKey) (score : Rat) (timestamp : Int) : DPSCache :=
  (k, ⟨score, timestamp⟩) :: c

/-- Whether the cache holds an unexpired entry for key `k` at time `now`
(the condition under which `calculateDPS` returns a cached score). -/
def hasLiveEntry (c : DPSCache) (k : CacheKey) (now : Int) : Bool :=
  match cacheFind c k with
  | some e => decide (now - e.timestamp < cacheExpiry)
  | none => false

/-- The parse-and-score path of `calculateDPS` (reached on a cache miss):
parse the dates, return 0 if `orderDate`/`expectedDispatch` is invalid,
otherwise compute the score and cache it under `key`. -/
def computeAndCache (o : Order) (now : Int) (c : DPSCache) (key : CacheKey) :
    Rat × DPSCache :=
  match parseDate o.orderDate, parseDate o.expectedDispatch with
  | some od, some ed =>
    let s := computeDPS now od ed (parseDate o.deliveryBy) (jsOrderValue o.orderTotal)
    (s, cacheSet c key s now)
  | _, _ => (0, c)

/-- Model of `calculateDPS(order)`: returns the score and the updated cache.  Field
validation happens first (score 0 on failure); then the cache is consulted
(a fresh entry short-circuits the computation *before* any date parsing);
otherwise the score is computed, cached and returned.  The JS `try/catch`
never fires on this path (all operations are total), matching the no-throw
contract. -/
def calculateDPS (o : Order) (now : Int) (c : DPSCache) : Rat × DPSCache :=
  if validateOrderForDPS o = false then (0, c)
  else
    let key := getCacheKey o now
    match cacheFind c key with
    | some e =>
      if now - e.timestamp < cacheExpiry then (e.score, c)
      else computeAndCache o now c key
    | none => computeAndCache o now c key

/-- Model of `isOverdue(order)`: `now > expectedDispatch`, false when the date is
missing or unparseable. -/
def isOverdue (o : Order) (now : Int) : Bool :=
  match parseDate o.expectedDispatch with
  | none => false
  | some ed => decide (ed < now)

/-- The `order.dpsScore` value as read by the sort comparator.  Every element reaching
the comparator inside `updateQueue` carries a `dpsScore` (the scoring pass
rescores any order without one), so the `getD` default is never read there. -/
def dpsD (o : Order) : Rat := o.dpsScore.getD 0

/-- A `Date`/`null` as coerced by JS subtraction: `null` numifies to `0`. -/
def dateVal (f : DateField) : Int :=
  match parseDate f with
  | some ms => ms
  | none => 0

/-- JS boolean-to-number coercion used by `b.isOverdue - a.isOverdue`. -/
def boolVal (b : Bool) : Int := if b then 1 else 0

/-- The `updateQueue` sort comparator: descending DPS, then overdue first,
then higher order value, then older order date. -/
def cmpOrders (a b : Order) : Rat :=
  if dpsD b ≠ dpsD a then dpsD b - dpsD a
  else if a.isOverdue ≠ b.isOverdue then ((boolVal b.isOverdue - boolVal a.isOverdue : Int) : Rat)
  else
    let aValue := jsOrderValue a.orderTotal
    let bValue := jsOrderValue b.orderTotal
    if bValue ≠ aValue then bValue - aValue
    else ((dateVal a.orderDate - dateVal b.orderDate : Int) : Rat)

/-- Whether `a` may be placed before `b` by the sort: comparator result `≤ 0`. -/
def queueLeB (a b : Order) : Bool := decide (cmpOrders a b ≤ 0)

/-- The queue-manager state: working order set, last sorted ranking, dirty
set of order numbers, and the score cache.  (The `isCalculating` reentrancy
guard and wall-clock performance metrics are not modeled: the embedding is
synchronous, so the guard is never observed set.) -/
structure QueueState where
  orders : List Order
  priorityQueue : List Order
  dirtyOrders : List (Option String)
  calculationCache : DPSCache
deriving DecidableEq

/-- The initial `DispatchPriorityQueue` state from the constructor. -/
def initialState : QueueState := ⟨[], [], [], []⟩

/-- Rescore one order: spread a fresh `dpsScore`/`isOverdue` onto it,
threading the score cache. -/
def rescoreOrder (o : Order) (now : Int) (c : DPSCache) : Order × DPSCache :=
  let sc := calculateDPS o now c
  ({ o with dpsScore := some sc.1, isOverdue := isOverdue o now }, sc.2)

/-- The `orders.map` scoring pass of `updateQueue`: rescore exactly the
orders that are dirty or lack a `dpsScore` property, keep the rest, thread
the cache, and count how many DPS computations were performed. -/
def scorePass (orders : List Order) (dirty : List (Option String)) (now : Int)
    (c : DPSCache) : List Order × DPSCache × Nat :=
  match orders with
  | [] => ([], c, 0)
  | o :: rest =>
    if dirty.contains o.orderNumber || o.dpsScore.isNone then
      let oc := rescoreOrder o now c
      let r := scorePass rest dirty now oc.2
      (oc.1 :: r.1, r.2.1, r.2.2 + 1)
    else
      let r := scorePass rest dirty now c
      (o :: r.1, r.2.1, r.2.2)

/-- The value returned by `updateQueue` together with the successor state
and the number of DPS recomputations it performed. -/
structure UpdateResult where
  queue : List Order
  state : QueueState
  scored : Nat
deriving DecidableEq

/-- Model of `updateQueue(orders?)`.  Providing `orders` replaces the working set and
marks every order dirty.  With no dirty orders and a nonempty previous
ranking the cached ranking is returned untouched; otherwise dirty (or
unscored) orders are rescored, the full set is sorted by `cmpOrders`
(JS `Array.prototype.sort` is stable; modeled by a stable merge sort), the
dirty set is cleared, and the new ranking is stored.  Note the JS keeps
`this.orders` as the *original* objects; only the ranking holds the scored
copies. -/
def updateQueue (newOrders : Option (List Order)) (st : QueueState) (now : Int) :
    UpdateResult :=
  let st1 :=
    match newOrders with
    | some os => { st with orders := os, dirtyOrders := os.map (·.orderNumber) }
    | none => st
  if st1.dirtyOrders.isEmpty && !st1.priorityQueue.isEmpty then
    ⟨st1.priorityQueue, st1, 0⟩
  else
    let sp := scorePass st1.orders st1.dirtyOrders now st1.calculationCache
    let sorted := sp.1.mergeSort queueLeB
    ⟨sorted,
     { st1 with priorityQueue := sorted, dirtyOrders := [], calculationCache := sp.2.1 },
     sp.2.2⟩

end DispatchQueue

namespace BatchOptimizer

/-- An order as the `BatchOptimizer` sees it.  String fields are `none` when
the JS property is absent/null *or* the empty string (both falsy, and the
optimizer only ever tests these fields for truthiness or equality).
`urgencyScore`/`value` are `none` when absent (JS comparisons with
`undefined` are all false, see `optGtB` and friends). -/
structure BOrder where
  orderNumber : Option String
  customer : Option String
  product : Option String
  sku : Option String
  county : Option String
  value : Option Rat
  urgencyScore : Option Rat
  deliveryEndDate : DateField
deriving DecidableEq

/-- The optimizer configuration, with the constructor's default values in
`config`.  (`locationTravel` and `minEfficiencyGain` are configured but never
read by the algorithm; `cacheExpiry` belongs to the un-modeled result cache.) -/
structure BatchConfig where
  basePicking : Rat
  batchSetup : Rat
  itemPickingReduction : Rat
  locationTravel : Rat
  packingEfficiency : Rat
  criticalUrgencyScore : Rat
  riskUrgencyScore : Rat
  maxBatchDelayHours : Rat
  minTimeSavings : Rat
  maxBatchSize : Nat
  minEfficiencyGain : Rat
  sameCountyBonus : Rat
  adjacentCountyBonus : Rat

/-- The default configuration from the `BatchOptimizer` constructor. -/
def config : BatchConfig :=
  { basePicking := 3.5, batchSetup := 1.2, itemPickingReduction := 0.6,
    locationTravel := 0.8, packingEfficiency := 0.75,
    criticalUrgencyScore := 85, riskUrgencyScore := 60, maxBatchDelayHours := 2,
    minTimeSavings := 1.5, maxBatchSize := 8, minEfficiencyGain := 15,
    sameCountyBonus := 0.3, adjacentCountyBonus := 0.15 }

/-- The static UK county-adjacency table from `initializeGeographicData`. -/
def countyAdjacency (c : String) : List String :=
  match c with
  | "Greater London" => ["Surrey", "Kent", "Essex", "Hertfordshire"]
  | "Surrey" => ["Greater London", "Kent", "West Sussex", "Hampshire", "Berkshire"]
  | "Kent" => ["Greater London", "Surrey", "East Sussex"]
  | "Essex" => ["Greater London", "Hertfordshire", "Suffolk", "Cambridgeshire"]
  | "Birmingham" => ["Warwickshire", "Staffordshire", "Worcestershire"]
  | "Manchester" => ["Lancashire", "Cheshire", "Derbyshire"]
  | "Liverpool" => ["Merseyside", "Lancashire", "Cheshire"]
  | "Leeds" => ["West Yorkshire", "North Yorkshire", "Lancashire"]
  | "Sheffield" => ["South Yorkshire", "Derbyshire", "Nottinghamshire"]
  | "Bristol" => ["Somerset", "Gloucestershire", "South Gloucestershire"]
  | "Newcastle" => ["Northumberland", "Durham", "Cumbria"]
  | "Cardiff" => ["Vale of Glamorgan", "Rhondda Cynon Taf", "Caerphilly"]
  | "Edinburgh" => ["Midlothian", "East Lothian", "West Lothian"]
  | "Glasgow" => ["East Dunbartonshire", "North Lanarkshire", "South Lanarkshire"]
  | "Belfast" => ["County Antrim", "County Down"]
  | _ => []

/-- Model of `validateInputs`: the target order must have a truthy `orderNumber` and
the candidate pool must be a nonempty array. -/
def validateInputs (t : BOrder) (pool : List BOrder) : Bool :=
  (match t.orderNumber with
   | some s => !(s == "")
   | none => false) && !pool.isEmpty

/-- Model of `calculateDeliveryDelay`: minutes the order's `deliveryEndDate` already
lies in the past, floored at 0; `none` models the `NaN` arising from a
missing/unparseable date (`new Date(undefined)`). -/
def calculateDeliveryDelay (o : BOrder) (now : Int) : Option Rat :=
  match o.deliveryEndDate with
  | .valid ms => some (max 0 (((now - ms : Int) : Rat) / (1000 * 60)))
  | _ => none

/-- Model of `filterEligibleOrders`: drop the target itself, orders above the
critical-urgency ceiling, orders already delayed beyond the acceptable
batching delay, and orders without truthy `product`/`sku`. -/
def filterEligibleOrders (t : BOrder) (availableOrders : List BOrder) (now : Int) :
    List BOrder :=
  availableOrders.filter fun o =>
    !(o.orderNumber == t.orderNumber) &&
    !(optGtB o.urgencyScore config.criticalUrgencyScore) &&
    !(optGtB (calculateDeliveryDelay o now) (config.maxBatchDelayHours * 60)) &&
    !(o.product == none) &&
    !(o.sku == none)

/-- The efficiency record shared by all batch analyses.  `riskScore` is
`none` when the JS value is `NaN` (some batch member lacks an
`urgencyScore`). -/
structure Efficiency where
  baseTime : Rat
  batchTime : Rat
  timeSavings : Rat
  efficiencyGain : Rat
  costSavings : Rat
  riskScore : Option Rat
deriving DecidableEq

/-- JS `Math.max(...orders.map(o => o.urgencyScore))`: `none` (`NaN`) if any
member lacks a score.  (All call sites pass nonempty lists.) -/
def jsMaxUrgency (orders : List BOrder) : Option Rat :=
  if (orders.map (·.urgencyScore)).all Option.isSome then
    (orders.filterMap (·.urgencyScore)).max?
  else none

/-- Model of `calculateBatchRiskScore`: max urgency scaled to `[0,1]` plus size and
high-value penalties, capped at 1. -/
def calculateBatchRiskScore (batchOrders : List BOrder) : Option Rat :=
  match jsMaxUrgency batchOrders with
  | some u =>
    let urgencyRisk := u / 100
    let sizeRisk : Rat := if 5 < batchOrders.length then 0.2 else 0
    let valueRisk : Rat := if batchOrders.any (fun o => optGtB o.value 1000) then 0.1 else 0
    some (min (urgencyRisk + sizeRisk + valueRisk) 1)
  | none => none

/-- Model of `calculateSKUBatchEfficiency`.  Note the JS quirks preserved here: the
returned `batchTime` is floored at 30% of `baseTime` but `timeSavings` and
`efficiencyGain` are computed from the *unfloored* batch time, and
`costSavings` uses the unfloored (possibly negative) savings. -/
def calculateSKUBatchEfficiency (batchOrders : List BOrder)
    (efficiencyMultiplier : Rat) : Efficiency :=
  let baseTime := (batchOrders.length : Rat) * config.basePicking
  let batchSetupTime := config.batchSetup
  let pickingReduction :=
    ((batchOrders.length : Rat) - 1) * config.itemPickingReduction * efficiencyMultiplier
  let packingEfficiency :=
    (batchOrders.length : Rat) * config.packingEfficiency * efficiencyMultiplier
  let batchTime := batchSetupTime + baseTime - pickingReduction - packingEfficiency
  let timeSavings := baseTime - batchTime
  let efficiencyGain := timeSavings / baseTime * 100
  { baseTime := baseTime, batchTime := max batchTime (baseTime * 0.3),
    timeSavings := max timeSavings 0, efficiencyGain := max efficiencyGain 0,
    costSavings := timeSavings * 0.5,
    riskScore := calculateBatchRiskScore batchOrders }

/-- Geographic grouping kind. -/
inductive GeoType
  | same_county
  | adjacent_county
deriving DecidableEq

/-- Model of `calculateGeographicBatchEfficiency`. -/
def calculateGeographicBatchEfficiency (batchOrders : List BOrder) (geoType : GeoType) :
    Efficiency :=
  let baseTime := (batchOrders.length : Rat) * config.basePicking
  let travelReduction :=
    match geoType with
    | .same_county => config.sameCountyBonus
    | .adjacent_county => config.adjacentCountyBonus
  let batchTime := baseTime * (1 - travelReduction) + config.batchSetup
  let timeSavings := baseTime - batchTime
  let efficiencyGain := timeSavings / baseTime * 100
  { baseTime := baseTime, batchTime := batchTime,
    timeSavings := max timeSavings 0, efficiencyGain := max efficiencyGain 0,
    costSavings := timeSavings * 0.5,
    riskScore := calculateBatchRiskScore batchOrders }

/-- Sum of the members' urgency scores.  The one call site
(`analyzeUrgencyBatches`) only builds batches all of whose members carry an
`urgencyScore` — the tolerance filter is false on `undefined` — so the
`getD 0` default is never read on a reachable call. -/
def sumUrgency (orders : List BOrder) : Rat :=
  orders.foldl (fun s o => s + o.urgencyScore.getD 0) 0

/-- Sum of the members' order values; as with `sumUrgency`, the call site
(`analyzeValueBatches`) guarantees every member carries a `value`. -/
def sumValue (orders : List BOrder) : Rat :=
  orders.foldl (fun s o => s + o.value.getD 0) 0

/-- Model of `calculateUrgencyBatchEfficiency`: a batching discount of 15% offset by
an average-urgency penalty. -/
def calculateUrgencyBatchEfficiency (batchOrders : List BOrder) : Efficiency :=
  let baseTime := (batchOrders.length : Rat) * config.basePicking
  let avgUrgency := sumUrgency batchOrders / (batchOrders.length : Rat)
  let urgencyPenalty := avgUrgency / 100 * 0.2
  let batchTime := baseTime * (1 - 0.15 + urgencyPenalty) + config.batchSetup
  let timeSavings := baseTime - batchTime
  let efficiencyGain := timeSavings / baseTime * 100
  { baseTime := baseTime, batchTime := batchTime,
    timeSavings := max timeSavings 0, efficiencyGain := max efficiencyGain 0,
    costSavings := timeSavings * 0.5,
    riskScore := calculateBatchRiskScore batchOrders }

/-- Model of `calculateValueBatchEfficiency`: a 10% discount plus a premium-handling
surcharge depending on the average order value. -/
def calculateValueBatchEfficiency (batchOrders : List BOrder) : Efficiency :=
  let baseTime := (batchOrders.length : Rat) * config.basePicking
  let avgValue := sumValue batchOrders / (batchOrders.length : Rat)
  let premiumHandling : Rat := if 1000 < avgValue then 0.5 else 0.2
  let batchTime := baseTime * (1 - 0.1) + config.batchSetup + premiumHandling
  let timeSavings := baseTime - batchTime
  let efficiencyGain := timeSavings / baseTime * 100
  { baseTime := baseTime, batchTime := batchTime,
    timeSavings := max timeSavings 0, efficiencyGain := max efficiencyGain 0,
    costSavings := timeSavings * 0.5,
    riskScore := calculateBatchRiskScore batchOrders }

/-- Model of `calculateHybridBatchEfficiency`: compounded per-factor bonuses. -/
def calculateHybridBatchEfficiency (batchOrders : List BOrder) (factors : List String) :
    Efficiency :=
  let baseTime := (batchOrders.length : Rat) * config.basePicking
  let efficiencyBonus : Rat :=
    (if factors.contains "sku" then 0.25 else 0) +
    (if factors.contains "geographic" then 0.15 else 0) +
    (if factors.contains "urgency" then 0.10 else 0) +
    (if factors.contains "value" then 0.05 else 0)
  let batchTime := baseTime * (1 - efficiencyBonus) + config.batchSetup
  let timeSavings := baseTime - batchTime
  let efficiencyGain := timeSavings / baseTime * 100
  { baseTime := baseTime, batchTime := batchTime,
    timeSavings := max timeSavings 0, efficiencyGain := max efficiencyGain 0,
    costSavings := timeSavings * 0.5,
    riskScore := calculateBatchRiskScore batchOrders }

/-- A candidate batch as produced by the four analyzers and the hybrid pass.
Per-type descriptive metadata (`description`, `sku`, `county`, ranges...) is
display-only and omitted. -/
structure BatchCand where
  type : String
  orders : List BOrder
  priority : String
  efficiency : Efficiency
deriving DecidableEq

/-- JS `String.prototype.length` on the `List Char` model. -/
def strLen (s : String) : Nat := s.data.length

/-- JS `String.prototype.substring(0, n)`. -/
def strTake (s : String) (n : Nat) : String := ⟨s.data.take n⟩

/-- JS `String.prototype.startsWith`. -/
def strStartsWith (s p : String) : Bool := p.data.isPrefixOf s.data

/-- Model of `findSimilarSKUs`: orders whose SKU shares the target SKU's prefix
pattern but is not the target SKU itself.  (Callers only pass eligible
orders, which all carry a SKU; a missing SKU is mapped to `false`.) -/
def findSimilarSKUs (targetSKU : String) (orders : List BOrder) : List BOrder :=
  let basePattern := strTake targetSKU (min (strLen targetSKU - 2) 6)
  orders.filter fun o =>
    match o.sku with
    | some s => strStartsWith s basePattern && !(s == targetSKU)
    | none => false

/-- Model of `analyzeSKUBatches`: exact-SKU and similar-SKU candidate batches.  The
similar-SKU arm needs the target's SKU string; `findBatchOpportunities`
never reaches this analysis with a SKU-less target (the JS throws a
`TypeError` there, caught into an error result — see
`findBatchOpportunities`). -/
def analyzeSKUBatches (targetOrder : BOrder) (eligibleOrders : List BOrder) :
    List BatchCand :=
  let exactMatches := eligibleOrders.filter (fun o => o.sku == targetOrder.sku)
  let exactPart :=
    if exactMatches.isEmpty then []
    else
      let batchOrders := (targetOrder :: exactMatches).take config.maxBatchSize
      let efficiency := calculateSKUBatchEfficiency batchOrders 1
      if config.minTimeSavings ≤ efficiency.timeSavings then
        [⟨"sku_exact", batchOrders, "high", efficiency⟩]
      else []
  let similarPart :=
    match targetOrder.sku with
    | some targetSKU =>
      let similarSKUs := findSimilarSKUs targetSKU eligibleOrders
      if similarSKUs.isEmpty then []
      else
        let batchOrders := (targetOrder :: similarSKUs).take config.maxBatchSize
        let efficiency := calculateSKUBatchEfficiency batchOrders 0.7
        if config.minTimeSavings ≤ efficiency.timeSavings then
          [⟨"sku_similar", batchOrders, "medium", efficiency⟩]
        else []
    | none => []
  exactPart ++ similarPart

/-- Model of `analyzeGeographicBatches`: same-county and adjacent-county batches.
JS `undefined === undefined` is true, so a county-less target groups with
county-less candidates; `countyAdjacency[undefined] || []` is empty. -/
def analyzeGeographicBatches (targetOrder : BOrder) (eligibleOrders : List BOrder) :
    List BatchCand :=
  let sameCountyOrders := eligibleOrders.filter (fun o => o.county == targetOrder.county)
  let samePart :=
    if sameCountyOrders.isEmpty then []
    else
      let batchOrders := (targetOrder :: sameCountyOrders).take config.maxBatchSize
      let efficiency := calculateGeographicBatchEfficiency batchOrders .same_county
      if config.minTimeSavings ≤ efficiency.timeSavings then
        [⟨"geographic_same", batchOrders, "medium", efficiency⟩]
      else []
  let adjacentCounties :=
    match targetOrder.county with
    | some c => countyAdjacency c
    | none => []
  let adjacentOrders := eligibleOrders.filter fun o =>
    match o.county with
    | some c => adjacentCounties.contains c
    | none => false
  let adjacentPart :=
    if adjacentOrders.isEmpty then []
    else
      let batchOrders := (targetOrder :: adjacentOrders).take config.maxBatchSize
      let efficiency := calculateGeographicBatchEfficiency batchOrders .adjacent_county
      if config.minTimeSavings * 0.8 ≤ efficiency.timeSavings then
        [⟨"geographic_adjacent", batchOrders, "low", efficiency⟩]
      else []
  samePart ++ adjacentPart

/-- Model of `getUrgencyPriority` (JS comparisons, false on `undefined`). -/
def getUrgencyPriority (urgencyScore : Option Rat) : String :=
  if optGeB urgencyScore 70 then "high"
  else if optGeB urgencyScore 40 then "medium"
  else "low"

/-- Model of `analyzeUrgencyBatches`: candidates within ±15 urgency points of the
target and below the risk threshold.  `Math.abs(o - undefined) <= 15` is
false, so a score-less target or candidate never matches. -/
def analyzeUrgencyBatches (targetOrder : BOrder) (eligibleOrders : List BOrder) :
    List BatchCand :=
  let urgencyTolerance : Rat := 15
  let similarUrgencyOrders := eligibleOrders.filter fun o =>
    match targetOrder.urgencyScore, o.urgencyScore with
    | some tu, some ou =>
      decide (|ou - tu| ≤ urgencyTolerance) && decide (ou < config.riskUrgencyScore)
    | _, _ => false
  if similarUrgencyOrders.isEmpty then []
  else
    let batchOrders := (targetOrder :: similarUrgencyOrders).take config.maxBatchSize
    let efficiency := calculateUrgencyBatchEfficiency batchOrders
    if config.minTimeSavings ≤ efficiency.timeSavings then
      [⟨"urgency_similar", batchOrders, getUrgencyPriority targetOrder.urgencyScore,
        efficiency⟩]
    else []

/-- Model of `analyzeValueBatches`: for high-value targets (≥ £500), group only with
other high-value, below-risk candidates. -/
def analyzeValueBatches (targetOrder : BOrder) (eligibleOrders : List BOrder) :
    List BatchCand :=
  if optGeB targetOrder.value 500 then
    let highValueOrders := eligibleOrders.filter fun o =>
      optGeB o.value 500 && optLtB o.urgencyScore config.riskUrgencyScore
    if highValueOrders.isEmpty then []
    else
      let batchOrders := (targetOrder :: highValueOrders).take config.maxBatchSize
      let efficiency := calculateValueBatchEfficiency batchOrders
      if config.minTimeSavings ≤ efficiency.timeSavings then
        [⟨"value_high", batchOrders, "high", efficiency⟩]
      else []
  else []

/-- Model of `findOrderIntersection`: members of `orders2` whose order number occurs
in `orders1`. -/
def findOrderIntersection (orders1 orders2 : List BOrder) : List BOrder :=
  let orderNumbers1 := orders1.map (·.orderNumber)
  orders2.filter (fun o => orderNumbers1.contains o.orderNumber)

/-- Model of `createHybridBatches`: SKU × geographic intersections of at least 3
orders, against a 1.2× savings threshold.  (Only the SKU/geo combination is
implemented in the source; the urgency/value arguments are unused there.) -/
def createHybridBatches (skuBatches geoBatches : List BatchCand) : List BatchCand :=
  skuBatches.flatMap fun skuBatch =>
    geoBatches.flatMap fun geoBatch =>
      let intersectionOrders := findOrderIntersection skuBatch.orders geoBatch.orders
      if 3 ≤ intersectionOrders.length then
        let efficiency := calculateHybridBatchEfficiency intersectionOrders
          ["sku", "geographic"]
        if config.minTimeSavings * 1.2 ≤ efficiency.timeSavings then
          [⟨"hybrid_sku_geo", intersectionOrders, "high", efficiency⟩]
        else []
      else []

/-- The `rankBatchesByEfficiency` comparator: efficiency gain descending
(differences within 5 points tie), then time savings descending (within 1
minute ties), then risk ascending; a `NaN` risk difference is treated as 0
by `Array.prototype.sort`. -/
def rankCmp (a b : BatchCand) : Rat :=
  let efficiencyDiff := b.efficiency.efficiencyGain - a.efficiency.efficiencyGain
  if 5 < |efficiencyDiff| then efficiencyDiff
  else
    let timeDiff := b.efficiency.timeSavings - a.efficiency.timeSavings
    if 1 < |timeDiff| then timeDiff
    else
      match a.efficiency.riskScore, b.efficiency.riskScore with
      | some x, some y => x - y
      | _, _ => 0

/-- Boolean form of the rank comparator for the sort. -/
def rankLeB (a b : BatchCand) : Bool := decide (rankCmp a b ≤ 0)

/-- Model of `rankBatchesByEfficiency`: keep batches meeting the minimum savings,
sort by `rankCmp`, retain the top 10. -/
def rankBatchesByEfficiency (allBatches : List BatchCand) : List BatchCand :=
  ((allBatches.filter
      (fun b => config.minTimeSavings ≤ b.efficiency.timeSavings)).mergeSort rankLeB).take 10

/-- The per-order projection embedded in a recommendation. -/
structure RecOrder where
  orderNumber : Option String
  customer : Option String
  product : Option String
  sku : Option String
  value : Option Rat
  urgencyScore : Option Rat
  county : Option String
deriving DecidableEq

/-- Project a pool order onto its recommendation record. -/
def projectOrder (o : BOrder) : RecOrder :=
  ⟨o.orderNumber, o.customer, o.product, o.sku, o.value, o.urgencyScore, o.county⟩

/-- The rounded efficiency block of a recommendation. -/
structure RecEfficiency where
  timeSavingsMinutes : Rat
  efficiencyGainPercent : Rat
  costSavingsPounds : Rat
  riskScore : Option Rat
deriving DecidableEq

/-- A ranked batch recommendation.  The display-only enrichment
(`batchId`, `description`, feasibility assessment, action steps, warnings)
is computed per batch without influencing which batches are returned, and is
omitted. -/
structure Recommendation where
  rank : Nat
  type : String
  priority : String
  orders : List RecOrder
  efficiency : RecEfficiency
deriving DecidableEq

/-- Model of `generateBatchRecommendations`: number the ranked batches from 1 and
round the efficiency figures for display. -/
def generateBatchRecommendations (rankedBatches : List BatchCand) :
    List Recommendation :=
  rankedBatches.enum.map fun ib =>
    { rank := ib.1 + 1, type := ib.2.type, priority := ib.2.priority,
      orders := ib.2.orders.map projectOrder,
      efficiency :=
        { timeSavingsMinutes := ((jsRound (ib.2.efficiency.timeSavings * 10) : Int) : Rat) / 10,
          efficiencyGainPercent := ((jsRound (ib.2.efficiency.efficiencyGain * 10) : Int) : Rat) / 10,
          costSavingsPounds := ((jsRound (ib.2.efficiency.costSavings * 100) : Int) : Rat) / 100,
          riskScore := ib.2.efficiency.riskScore.map
            (fun r => ((jsRound (r * 100) : Int) : Rat) / 100) } }

/-- The observable result of `findBatchOpportunities`: success flag and the
ranked recommendations (`batchOpportunities`). -/
structure BatchResult where
  success : Bool
  opportunities : List Recommendation
deriving DecidableEq

/-- Strict code-unit lexicographic order on character lists, as JS string
`<` compares strings. -/
def charListLt : List Char → List Char → Bool
  | [], [] => false
  | [], _ :: _ => true
  | _ :: _, [] => false
  | a :: as, b :: bs =>
    if a.val < b.val then true
    else if b.val < a.val then false
    else charListLt as bs

/-- The non-strict comparator the default JS `Array.prototype.sort` induces
on strings (code-unit lexicographic). -/
def strLeB (a b : String) : Bool := !(charListLt b.data a.data)

/-- Model of `generateCacheKey`: the order numbers of the target and the whole
pool, sorted by the default JS string sort (`undefined` elements go last and
render as the empty string in `join`), joined with `_`, then reduced to the
prefix that survives `btoa(...).slice(0, 16)`.  Sixteen base64 characters
encode exactly the first 12 bytes of the joined string, and base64 is
injective on that prefix, so the key is modeled as the raw 12-character
prefix (order numbers are Latin-1 here; `btoa` throws beyond that).  Note
the key does not depend on *which* order is the target. -/
def generateCacheKey (targetOrder : BOrder) (availableOrders : List BOrder) :
    String :=
  let orderIds := targetOrder.orderNumber :: availableOrders.map (·.orderNumber)
  let sortedIds := (orderIds.filterMap id).mergeSort strLeB
  let padded := sortedIds ++ List.replicate (orderIds.length - sortedIds.length) ""
  strTake (String.intercalate "_" padded) 12

/-- The analysis-result cache (`this.analysisCache`), keyed by
`generateCacheKey`.  Entries are evicted by a 5-minute `setTimeout` — an
external timer event between calls, not a lookup-time freshness check — so
the cache carries no timestamps. -/
abbrev AnalysisCache := List (String × BatchResult)

/-- A `Map.get`-style lookup in the analysis cache. -/
def analysisCacheFind (c : AnalysisCache) (k : String) : Option BatchResult :=
  (c.find? (fun e => e.1 == k)).map (·.2)

/-- Model of `findBatchOpportunities(targetOrder, availableOrders)`, returning the
result and the updated analysis cache.  Invalid inputs yield an empty result;
then the cache is consulted and a hit is replayed verbatim (the key is
symmetric in the target, see `generateCacheKey`); on a miss, an empty
eligible pool yields an empty result, a SKU-less target with a nonempty
eligible pool raises a `TypeError` inside `findSimilarSKUs`
(`undefined.substring`) caught into an error result, and otherwise the four
analyses plus hybrids run, are ranked, returned and cached (only the success
result is stored — the empty and error results return before the `set`).
Performance counters are not modeled. -/
def findBatchOpportunities (targetOrder : BOrder) (availableOrders : List BOrder)
    (now : Int) (analysisCache : AnalysisCache) : BatchResult × AnalysisCache :=
  if !(validateInputs targetOrder availableOrders) then (⟨false, []⟩, analysisCache)
  else
    let cacheKey := generateCacheKey targetOrder availableOrders
    match analysisCacheFind analysisCache cacheKey with
    | some cached => (cached, analysisCache)
    | none =>
      let eligibleOrders := filterEligibleOrders targetOrder availableOrders now
      if eligibleOrders.isEmpty then (⟨false, []⟩, analysisCache)
      else
        match targetOrder.sku with
        | none => (⟨false, []⟩, analysisCache)
        | some _ =>
          let skuBatches := analyzeSKUBatches targetOrder eligibleOrders
          let geographicBatches := analyzeGeographicBatches targetOrder eligibleOrders
          let urgencyBatches := analyzeUrgencyBatches targetOrder eligibleOrders
          let valueBatches := analyzeValueBatches targetOrder eligibleOrders
          let hybridBatches := createHybridBatches skuBatches geographicBatches
          let rankedBatches := rankBatchesByEfficiency
            (skuBatches ++ geographicBatches ++ urgencyBatches ++ valueBatches ++
              hybridBatches)
          let result : BatchResult := ⟨true, generateBatchRecommendations rankedBatches⟩
          (result, (cacheKey, result) :: analysisCache)

end BatchOptimizer

namespace PackWorkflow

/-- The pack workflow states (`PackStates`). -/
inductive PackState
  | pending
  | picking
  | packing
  | packed
  | dispatched
deriving DecidableEq

/-- The allowed-transition table from `isValidStateTransition`. -/
def validTransitions (currentState : PackState) : List PackState :=
  match currentState with
  | .pending => [.picking]
  | .picking => [.packing, .pending]
  | .packing => [.packed, .picking]
  | .packed => [.dispatched]
  | .dispatched => []

/-- Model of `isValidStateTransition(currentState, newState)`. -/
def isValidStateTransition (currentState newState : PackState) : Bool :=
  (validTransitions currentState).contains newState

/-- The per-state timestamp map of a session (`session.timestamps`); each
field is the epoch-ms time the state was entered, `none` before that. -/
structure Timestamps where
  started : Option Int
  picking : Option Int
  packing : Option Int
  packed : Option Int
  dispatched : Option Int
deriving DecidableEq

/-- JS `session.timestamps[newStatus] = new Date()`. -/
def setStamp (t : Timestamps) (s : PackState) (v : Int) : Timestamps :=
  match s with
  | .pending => t
  | .picking => { t with picking := some v }
  | .packing => { t with packing := some v }
  | .packed => { t with packed := some v }
  | .dispatched => { t with dispatched := some v }

/-- A note entry: timestamp, text, recording worker. -/
structure Note where
  timestamp : Int
  note : String
  worker : String
deriving DecidableEq

/-- An active pack session.  The `priority`/`estimatedDuration` fields are
set once at session start and never read by `updatePackStatus`; together
with the `errors` log they are omitted. -/
structure PackSession where
  orderNumber : String
  workerName : String
  status : PackState
  timestamps : Timestamps
  actualDuration : Option Int
  notes : List Note
  completed : Option Int
deriving DecidableEq

/-- Per-worker efficiency metrics.  `bestTime = none` models the initial
`Infinity`.  `packedOrders` entries record (order, duration, time). -/
structure WMetrics where
  totalPackTime : Rat
  packCount : Nat
  averagePackTime : Rat
  bestTime : Option Rat
  worstTime : Rat
  packedOrders : List (String × Rat × Int)
deriving DecidableEq

/-- The fresh per-worker metrics record (`totalPackTime: 0, packCount: 0,
averagePackTime: 0, bestTime: Infinity, worstTime: 0`; the display-only
`currentShift` date string is omitted). -/
def initWMetrics : WMetrics :=
  { totalPackTime := 0, packCount := 0, averagePackTime := 0,
    bestTime := none, worstTime := 0, packedOrders := [] }

/-- One `recordPackingMetrics` update of a single worker's accumulator. -/
def recordPackingMetrics (m : WMetrics) (orderNumber : String) (duration : Rat)
    (now : Int) : WMetrics :=
  let totalPackTime := m.totalPackTime + duration
  let packCount := m.packCount + 1
  { totalPackTime := totalPackTime, packCount := packCount,
    averagePackTime := totalPackTime / (packCount : Rat),
    bestTime := some (match m.bestTime with
      | none => duration
      | some b => min b duration),
    worstTime := max m.worstTime duration,
    packedOrders := m.packedOrders ++ [(orderNumber, duration, now)] }

/-- Association-list update (JS `Map.set` keyed by worker name). -/
def setAssoc {α : Type} (l : List (String × α)) (k : String) (v : α) :
    List (String × α) :=
  (k, v) :: l.filter (fun e => !(e.1 == k))

/-- Association-list lookup (JS `Map.get`). -/
def getAssoc {α : Type} (l : List (String × α)) (k : String) : Option α :=
  (l.find? (fun e => e.1 == k)).map (·.2)

/-- Model of `recordPackingMetrics` at the worker-metrics map level: create the
worker's record if absent, then apply the update.  (The module-global
`WorkerMetrics` mirror and the `metrics-updated` event are not modeled.) -/
def recordPackingMetricsMap (metrics : List (String × WMetrics)) (orderNumber : String)
    (duration : Rat) (workerName : String) (now : Int) : List (String × WMetrics) :=
  let m := (getAssoc metrics workerName).getD initWMetrics
  setAssoc metrics workerName (recordPackingMetrics m orderNumber duration now)

/-- Run a sequence of `recordPackingMetrics` calls
(worker, duration, order, time) against an initially empty metrics map. -/
def runMetrics (calls : List (String × Rat × String × Int)) :
    List (String × WMetrics) :=
  calls.foldl
    (fun ms c => recordPackingMetricsMap ms c.2.2.1 c.2.1 c.1 c.2.2.2) []

/-- The pack-workflow errors raised to the caller. -/
inductive PackError
  | noActiveSession (orderNumber : String)
  | invalidTransition (fromState toState : PackState)
deriving DecidableEq

instance exceptDecEq {ε α : Type} [DecidableEq ε] [DecidableEq α] :
    DecidableEq (Except ε α)
  | .error a, .error b =>
    if h : a = b then isTrue (by rw [h])
    else isFalse (fun hh => h (by cases hh; rfl))
  | .error _, .ok _ => isFalse (fun hh => Except.noConfusion hh)
  | .ok _, .error _ => isFalse (fun hh => Except.noConfusion hh)
  | .ok a, .ok b =>
    if h : a = b then isTrue (by rw [h])
    else isFalse (fun hh => h (by cases hh; rfl))

/-- The mutable `PackWorkflow` state: active sessions keyed by order number,
completed-session history, per-worker metrics. -/
structure WorkflowState where
  packSessions : List (String × PackSession)
  packHistory : List PackSession
  workerMetrics : List (String × WMetrics)
deriving DecidableEq

/-- Model of `calculatePackDuration`: minutes between the picking and packed
timestamps, rounded (JS date arithmetic coerces a missing stamp to 0). -/
def calculatePackDuration (session : PackSession) : Int :=
  let startTime := session.timestamps.picking.getD 0
  let endTime := session.timestamps.packed.getD 0
  jsRound (((endTime - startTime : Int) : Rat) / (1000 * 60))

/-- Model of `completePackWorkflow`: stamp completion, copy the session into history,
drop it from the active map.  (The order-status write-through, persistence
and events are external side effects.) -/
def completePackWorkflow (wf : WorkflowState) (orderNumber : String) (now : Int) :
    WorkflowState :=
  match getAssoc wf.packSessions orderNumber with
  | none => wf
  | some session =>
    let session := { session with completed := some now, status := .dispatched }
    { wf with
      packHistory := wf.packHistory ++ [session],
      packSessions := wf.packSessions.filter (fun e => !(e.1 == orderNumber)) }

/-- Model of `updatePackStatus(orderNumber, newStatus, notes)`: validates the session
exists and the transition is allowed (throwing *before* any mutation
otherwise), then stamps the new status, appends notes, computes the actual
duration and records worker metrics on reaching PACKED, and moves the
session to history on reaching DISPATCHED.  Returns the session as the JS
does, plus the successor state; on error the state is the unchanged input. -/
def updatePackStatus (wf : WorkflowState) (orderNumber : String)
    (newStatus : PackState) (notes : String) (now : Int) :
    Except PackError PackSession × WorkflowState :=
  match getAssoc wf.packSessions orderNumber with
  | none => (.error (.noActiveSession orderNumber), wf)
  | some session =>
    if isValidStateTransition session.status newStatus = false then
      (.error (.invalidTransition session.status newStatus), wf)
    else
      let session :=
        { session with
          status := newStatus,
          timestamps := setStamp session.timestamps newStatus now,
          notes := if notes == "" then session.notes
            else session.notes ++ [⟨now, notes, session.workerName⟩] }
      let stepPacked :=
        if newStatus = .packed then
          let actualDuration := calculatePackDuration session
          let session := { session with actualDuration := some actualDuration }
          let metrics := recordPackingMetricsMap wf.workerMetrics orderNumber
            ((actualDuration : Int) : Rat) session.workerName now
          (session, { wf with workerMetrics := metrics })
        else (session, wf)
      let wf2 := { stepPacked.2 with
        packSessions := setAssoc stepPacked.2.packSessions orderNumber stepPacked.1 }
      if newStatus = .dispatched then
        let wf3 := completePackWorkflow wf2 orderNumber now
        (.ok { stepPacked.1 with completed := some now, status := .dispatched }, wf3)
      else
        (.ok stepPacked.1, wf2)

end PackWorkflow

/-! ## Verification-layer definitions

Predicates used to state the claims, and the concrete inputs used by
witnesses and counterexamples. -/

namespace DispatchQueue

/-- Every cached score lies in `[0, 100]` — an invariant of the real cache,
whose entries only ever come from clamped score computations (see
`calculateDPS_preserves_cacheWF`). -/
def CacheWF (c : DPSCache) : Prop :=
  ∀ kv ∈ c, 0 ≤ kv.2.score ∧ kv.2.score ≤ 100

/-- The ranking relation claimed of adjacent queue entries: strictly higher
DPS first; on equal DPS overdue orders first, then higher order value, then
older (smaller) order date. -/
def queueLE (a b : Order) : Prop :=
  dpsD b < dpsD a ∨
  (dpsD b = dpsD a ∧
    ((a.isOverdue = true ∧ b.isOverdue = false) ∨
     (a.isOverdue = b.isOverdue ∧
       (jsOrderValue b.orderTotal < jsOrderValue a.orderTotal ∨
        (jsOrderValue b.orderTotal = jsOrderValue a.orderTotal ∧
         dateVal a.orderDate ≤ dateVal b.orderDate)))))

/-- A valid order (1h overdue, 26h old, delivery promised in 24h, £1500)
realizing the spec's perfect-score scenario.  Times are relative to
`now = 0`. -/
def scenarioOrder : Order :=
  { orderNumber := some "A", orderDate := .valid (-26 * 3600000),
    expectedDispatch := .valid (-3600000), deliveryBy := .valid (24 * 3600000),
    orderTotal := .num 1500 }

/-- An overdue order built to minimize every other component: fresh
`orderDate`, 200-hour delivery window, zero order total.  `now` for it is
`floorNow`. -/
def floorOrder : Order :=
  { orderNumber := some "C", orderDate := .valid 36000000,
    expectedDispatch := .valid (36000000 - 1),
    deliveryBy := .valid (36000000 + 200 * 3600000), orderTotal := .num 0 }

/-- The evaluation time used with `floorOrder`. -/
def floorNow : Int := 36000000

/-- A valid order whose dispatch deadline (at ms 7300000) crosses the 2-hour
scoring step between `now = 0` and `now = 240000` — both instants in hour
bucket 0 and within the 5-minute cache TTL of each other. -/
def stepOrder : Order :=
  { orderNumber := some "B", orderDate := .valid (-3600000),
    expectedDispatch := .valid 7300000, deliveryBy := .missing,
    orderTotal := .num 100 }

/-- A copy of `stepOrder` with its `orderDate` replaced by an unparseable value:
still passes required-field validation, but the date no longer parses. -/
def stepOrderBadDate : Order :=
  { stepOrder with orderDate := .invalid }

/-- An order whose `orderTotal` property is absent: fails validation. -/
def missingTotalOrder : Order :=
  { orderNumber := some "M", orderDate := .valid 0,
    expectedDispatch := .valid 3600000, deliveryBy := .missing,
    orderTotal := .missing }

/-- A fully valid order used by range witnesses. -/
def plainOrder : Order :=
  { orderNumber := some "P", orderDate := .valid 0,
    expectedDispatch := .valid (6 * 3600000), deliveryBy := .valid (30 * 3600000),
    orderTotal := .num 250 }

/-- A second valid order with a different value, for the sorting witness. -/
def plainOrder2 : Order :=
  { orderNumber := some "Q", orderDate := .valid (-3600000),
    expectedDispatch := .valid (50 * 3600000), deliveryBy := .missing,
    orderTotal := .num 40 }

/-- A stale cache: its only entry is long expired. -/
def staleCache : DPSCache := [((some "B", 0), ⟨55, -999999999⟩)]

end DispatchQueue

namespace BatchOptimizer

/-- The shape invariant every analyzer output satisfies: the batch is the
target order followed by a nonempty tail drawn from the eligible pool, and
respects the maximum batch size. -/
def BatchOK (t : BOrder) (elig : List BOrder) (b : BatchCand) : Prop :=
  ∃ zs, b.orders = t :: zs ∧ zs ≠ [] ∧ (∀ o ∈ zs, o ∈ elig) ∧
    b.orders.length ≤ config.maxBatchSize

/-- A critical-urgency target order (urgency 90 > 85) sharing a SKU with
two calm candidates. -/
def criticalTarget : BOrder :=
  ⟨some "T", none, some "Widget", some "AAAAAAAA", none, none, some 90, .missing⟩

/-- First calm candidate sharing `criticalTarget`'s SKU. -/
def calmOrder1 : BOrder :=
  ⟨some "P1", none, some "Widget", some "AAAAAAAA", none, none, some 10, .missing⟩

/-- Second calm candidate sharing `criticalTarget`'s SKU. -/
def calmOrder2 : BOrder :=
  ⟨some "P2", none, some "Widget", some "AAAAAAAA", none, none, some 10, .missing⟩

/-- A below-ceiling target for the batch-shape witness; counties are chosen
distinct and non-adjacent so exactly one (SKU-exact) recommendation arises. -/
def witnessTarget : BOrder :=
  ⟨some "T", none, some "Widget", some "AAAAAAAA", some "Zz0", none, some 20, .missing⟩

/-- First witness-pool candidate (urgency 50, outside the ±15 band). -/
def witnessOrder1 : BOrder :=
  ⟨some "P1", none, some "Widget", some "AAAAAAAA", some "Zz1", none, some 50, .missing⟩

/-- Second witness-pool candidate (urgency 45, outside the ±15 band). -/
def witnessOrder2 : BOrder :=
  ⟨some "P2", none, some "Widget", some "AAAAAAAA", some "Zz2", none, some 45, .missing⟩

/-- The single recommendation produced for `witnessTarget` over the witness
pool: the SKU-exact batch of all three orders. -/
def witnessRec : Recommendation :=
  { rank := 1, type := "sku_exact", priority := "high",
    orders := [projectOrder witnessTarget, projectOrder witnessOrder1,
      projectOrder witnessOrder2],
    efficiency := { timeSavingsMinutes := 23/10, efficiencyGainPercent := 107/5,
                    costSavingsPounds := 113/100, riskScore := some (1/2) } }

end BatchOptimizer

namespace PackWorkflow

/-- The strengthened accumulator invariant carried through the induction:
the entry has been updated at least once, the average is exactly
`total/count`, and best/worst bound the total linearly. -/
def StrongMetricsInv (m : WMetrics) : Prop :=
  1 ≤ m.packCount ∧
  m.averagePackTime = m.totalPackTime / (m.packCount : Rat) ∧
  ∃ b, m.bestTime = some b ∧ b * (m.packCount : Rat) ≤ m.totalPackTime ∧
    m.totalPackTime ≤ m.worstTime * (m.packCount : Rat)

/-- A pack session sitting in PENDING, for the transition witnesses. -/
def pendingSession : PackSession :=
  { orderNumber := "O1", workerName := "W", status := .pending,
    timestamps := ⟨some 0, none, none, none, none⟩, actualDuration := none,
    notes := [], completed := none }

/-- A workflow state holding only `pendingSession`. -/
def pendingWorkflow : WorkflowState := ⟨[("O1", pendingSession)], [], []⟩

/-- The metrics entry produced by packing order A in 5 minutes and order B
in 3 minutes, both by worker W. -/
def twoPackMetrics : WMetrics :=
  { totalPackTime := 8, packCount := 2, averagePackTime := 4,
    bestTime := some 3, worstTime := 5,
    packedOrders := [("A", 5, 0), ("B", 3, 1)] }

end PackWorkflow

/-! ## Theorems: Priority Scorer (C1–C5) -/

set_option maxRecDepth 2000

namespace DispatchQueue

theorem clamp_bounds (x : Rat) :
    0 ≤ max 0 (min 100 x) ∧ max 0 (min 100 x) ≤ 100 :=
  ⟨le_max_left 0 _, max_le (by norm_num) (min_le_left 100 x)⟩

theorem computeDPS_bounds (now od ed : Int) (db : Option Int) (v : Rat) :
    0 ≤ computeDPS now od ed db v ∧ computeDPS now od ed db v ≤ 100 := by
  simp only [computeDPS]
  exact clamp_bounds _

theorem computeAndCache_fst_bounds (o : Order) (now : Int) (c : DPSCache)
    (k : CacheKey) :
    0 ≤ (computeAndCache o now c k).1 ∧ (computeAndCache o now c k).1 ≤ 100 := by
  unfold computeAndCache
  rcases parseDate o.orderDate with _ | od <;>
    rcases parseDate o.expectedDispatch with _ | ed <;>
    simp <;> exact computeDPS_bounds _ _ _ _ _

theorem computeAndCache_fst_indep (o : Order) (now : Int) (c c' : DPSCache)
    (k k' : CacheKey) :
    (computeAndCache o now c k).1 = (computeAndCache o now c' k').1 := by
  unfold computeAndCache
  rcases parseDate o.orderDate with _ | od <;>
    rcases parseDate o.expectedDispatch with _ | ed <;> simp

theorem cacheFind_mem {c : DPSCache} {k : CacheKey} {e : CacheEntry}
    (h : cacheFind c k = some e) : ∃ kk, (kk, e) ∈ c := by
  unfold cacheFind at h
  rcases hf : c.find? (fun x => x.1 == k) with _ | kv
  · rw [hf] at h
    exact Option.noConfusion h
  · rw [hf] at h
    have hm := List.mem_of_find?_eq_some hf
    have h2 : kv.2 = e := by simpa using h
    exact ⟨kv.1, by rw [← h2]; exact hm⟩

theorem calculateDPS_fst_uncached (o : Order) (now : Int) (c : DPSCache)
    (hl : hasLiveEntry c (getCacheKey o now) now = false) :
    calculateDPS o now c =
      if validateOrderForDPS o = false then (0, c)
      else computeAndCache o now c (getCacheKey o now) := by
  unfold calculateDPS
  unfold hasLiveEntry at hl
  rcases h : cacheFind c (getCacheKey o now) with _ | e
  · simp [h]
  · rw [h] at hl
    simp only [decide_eq_false_iff_not] at hl
    simp [h, hl]

/-- Claim C1. For every order that passes required-field validation and has
parseable `orderDate` and `expectedDispatch`, `calculateDPS` returns a score
in `[0, 100]` (given that every cached score is itself in range, an
invariant the cache maintains — see `calculateDPS_preserves_cacheWF`). -/
theorem calculateDPS_score_in_range (o : Order) (now : Int) (c : DPSCache)
    (hv : validateOrderForDPS o = true)
    (hod : (parseDate o.orderDate).isSome = true)
    (hed : (parseDate o.expectedDispatch).isSome = true)
    (hc : CacheWF c) :
    0 ≤ (calculateDPS o now c).1 ∧ (calculateDPS o now c).1 ≤ 100 := by
  unfold calculateDPS
  rw [hv]
  simp only [Bool.true_eq_false, if_false]
  rcases h : cacheFind c (getCacheKey o now) with _ | e
  · exact computeAndCache_fst_bounds o now c _
  · obtain ⟨kk, hmem⟩ := cacheFind_mem h
    have he := hc _ hmem
    by_cases hfresh : now - e.timestamp < cacheExpiry
    · simp only [if_pos hfresh]
      exact he
    · simp only [if_neg hfresh]
      exact computeAndCache_fst_bounds o now c _

theorem calculateDPS_score_in_range_witness :
    (validateOrderForDPS plainOrder = true ∧
     (parseDate plainOrder.orderDate).isSome = true ∧
     (parseDate plainOrder.expectedDispatch).isSome = true ∧ CacheWF []) ∧
    (0 ≤ (calculateDPS plainOrder 0 []).1 ∧ (calculateDPS plainOrder 0 []).1 ≤ 100) :=
  ⟨⟨by decide, by decide, by decide, by simp [CacheWF]⟩,
   calculateDPS_score_in_range plainOrder 0 [] (by decide) (by decide) (by decide)
     (by simp [CacheWF])⟩

theorem computeAndCache_snd_cacheWF (o : Order) (now : Int) (c : DPSCache)
    (k : CacheKey) (hc : CacheWF c) : CacheWF (computeAndCache o now c k).2 := by
  unfold computeAndCache
  rcases parseDate o.orderDate with _ | od <;>
    rcases parseDate o.expectedDispatch with _ | ed <;>
    first
      | exact hc
      | · intro kv hkv
          rcases List.mem_cons.1 hkv with hkv | hkv
          · rw [hkv]
            exact computeDPS_bounds _ _ _ _ _
          · exact hc _ hkv

/-- Cache well-formedness is preserved by `calculateDPS`: every entry it
writes is a freshly clamped score. -/
theorem calculateDPS_preserves_cacheWF (o : Order) (now : Int) (c : DPSCache)
    (hc : CacheWF c) : CacheWF (calculateDPS o now c).2 := by
  simp only [calculateDPS]
  split
  · exact hc
  · split
    · split
      · exact hc
      · exact computeAndCache_snd_cacheWF o now c _ hc
    · exact computeAndCache_snd_cacheWF o now c _ hc

/-- Claim C2, counterexample. An order with an unparseable `orderDate` (which
still passes required-field validation) does *not* score 0 when a fresh
cache entry exists under its `(orderNumber, hour)` key: `calculateDPS`
consults the cache before parsing any date, so the stale score of a prior
(valid) call with the same order number is returned instead. -/
theorem calculateDPS_cached_overrides_invalid_date :
    validateOrderForDPS stepOrderBadDate = true ∧
    parseDate stepOrderBadDate.orderDate = none ∧
    (calculateDPS stepOrderBadDate 0 (calculateDPS stepOrder 0 []).2).1 ≠ 0 :=
  ⟨by decide, by decide, by with_unfolding_all decide⟩

/-- Claim C2, amended. When the cache holds no unexpired entry for the
order's `(orderNumber, hour)` key, an order missing a required field, or
whose `orderDate`/`expectedDispatch` does not parse, scores exactly 0 — and
`calculateDPS` is a total function, so no exception is thrown. -/
theorem calculateDPS_zero_on_invalid_uncached (o : Order) (now : Int) (c : DPSCache)
    (hl : hasLiveEntry c (getCacheKey o now) now = false)
    (h : validateOrderForDPS o = false ∨ parseDate o.orderDate = none ∨
      parseDate o.expectedDispatch = none) :
    (calculateDPS o now c).1 = 0 := by
  rw [calculateDPS_fst_uncached o now c hl]
  by_cases hv : validateOrderForDPS o = false
  · simp [hv]
  · simp only [if_neg hv]
    rcases h with h | h | h
    · exact absurd h hv
    · unfold computeAndCache
      rw [h]
    · unfold computeAndCache
      rw [h]
      rcases parseDate o.orderDate with _ | od <;> simp

theorem calculateDPS_zero_on_invalid_uncached_witness :
    (hasLiveEntry [] (getCacheKey missingTotalOrder 0) 0 = false ∧
     (validateOrderForDPS missingTotalOrder = false ∨
      parseDate missingTotalOrder.orderDate = none ∨
      parseDate missingTotalOrder.expectedDispatch = none)) ∧
    (calculateDPS missingTotalOrder 0 []).1 = 0 :=
  ⟨⟨by decide, Or.inl (by decide)⟩,
   calculateDPS_zero_on_invalid_uncached missingTotalOrder 0 [] (by decide)
     (Or.inl (by decide))⟩

/-- Sub-score facts used by the overdue floor: an overdue deadline maxes the
dispatch component. -/
theorem dispatchScore_overdue (now ed : Int) (h : ed ≤ now) :
    calculateDispatchDeadlineScore now ed = 100 := by
  have hnum : ((ed - now : Int) : Rat) ≤ 0 := by
    have h0 : (ed - now : Int) ≤ 0 := by omega
    exact_mod_cast h0
  have hle : ((ed - now : Int) : Rat) / ((msPerHour : Int) : Rat) ≤ 0 :=
    div_nonpos_of_nonpos_of_nonneg hnum (by norm_num [msPerHour])
  simp only [calculateDispatchDeadlineScore]
  rw [if_pos hle]

theorem deliveryScore_ge_10 (od : Int) (db : Option Int) :
    10 ≤ calculateDeliveryPromiseScore od db := by
  simp only [calculateDeliveryPromiseScore]
  rcases db with _ | d
  · norm_num
  · simp only
    split_ifs <;> norm_num

theorem ageScore_ge_10 (now od : Int) : 10 ≤ calculateOrderAgeScore now od := by
  simp only [calculateOrderAgeScore]
  split_ifs <;> norm_num

theorem valueScore_nonneg (v : Rat) : 0 ≤ calculateOrderValueScore v := by
  simp only [calculateOrderValueScore]
  split_ifs <;> norm_num

theorem computeDPS_overdue_floor (now od ed : Int) (db : Option Int) (v : Rat)
    (h : ed ≤ now) : 63 ≤ computeDPS now od ed db v := by
  have h1 := dispatchScore_overdue now ed h
  have h2 := deliveryScore_ge_10 od db
  have h3 := ageScore_ge_10 now od
  have h4 := valueScore_nonneg v
  simp only [computeDPS, h1]
  have hdps : (63 : Rat) ≤
      100 * 0.6 + calculateDeliveryPromiseScore od db * 0.2 +
        calculateOrderAgeScore now od * 0.1 + calculateOrderValueScore v * 0.1 := by
    nlinarith
  set dps : Rat :=
    100 * 0.6 + calculateDeliveryPromiseScore od db * 0.2 +
      calculateOrderAgeScore now od * 0.1 + calculateOrderValueScore v * 0.1 with hdef
  have h6300 : (6300 : Int) ≤ jsRound (dps * 100) := by
    unfold jsRound
    rw [Int.le_floor]
    push_cast
    nlinarith
  have hdiv : (63 : Rat) ≤ ((jsRound (dps * 100) : Int) : Rat) / 100 := by
    rw [le_div_iff₀ (by norm_num)]
    have : ((6300 : Int) : Rat) ≤ ((jsRound (dps * 100) : Int) : Rat) :=
      Int.cast_le.2 h6300
    push_cast at this ⊢
    linarith
  calc (63 : Rat) ≤ min 100 (((jsRound (dps * 100) : Int) : Rat) / 100) :=
        le_min (by norm_num) hdiv
    _ ≤ max 0 (min 100 (((jsRound (dps * 100) : Int) : Rat) / 100)) := le_max_right _ _

/-- Claim C3, counterexample. A valid, overdue order (deadline 1 ms in the
past) with a fresh `orderDate`, a 200-hour delivery window and a zero order
total scores 63 — below the claimed floor of 70. -/
theorem overdue_score_below_70 :
    validateOrderForDPS floorOrder = true ∧
    parseDate floorOrder.orderDate = some 36000000 ∧
    parseDate floorOrder.expectedDispatch = some (floorNow - 1) ∧
    floorNow - 1 < floorNow ∧
    (calculateDPS floorOrder floorNow []).1 = 63 ∧
    ¬(70 ≤ (calculateDPS floorOrder floorNow []).1) :=
  ⟨by decide, by decide, by decide, by decide,
   by with_unfolding_all decide, by with_unfolding_all decide⟩

/-- Claim C3, amended. For every valid order whose `expectedDispatch` lies in
the past, a fresh computation (no unexpired cache entry for the order's key)
scores at least **63** — the exact floor: 0.6·100 (overdue dispatch) +
0.2·10 (delivery) + 0.1·10 (age) + 0.1·0 (value) — for any valid `orderDate`
and any `orderTotal`. -/
theorem calculateDPS_overdue_floor (o : Order) (now : Int) (c : DPSCache)
    (od ed : Int)
    (hv : validateOrderForDPS o = true)
    (hod : parseDate o.orderDate = some od)
    (hed : parseDate o.expectedDispatch = some ed)
    (hpast : ed < now)
    (hl : hasLiveEntry c (getCacheKey o now) now = false) :
    63 ≤ (calculateDPS o now c).1 := by
  rw [calculateDPS_fst_uncached o now c hl]
  rw [hv]
  simp only [Bool.true_eq_false, if_false]
  unfold computeAndCache
  rw [hod, hed]
  exact computeDPS_overdue_floor now od ed _ _ (le_of_lt hpast)

theorem calculateDPS_overdue_floor_witness :
    (validateOrderForDPS floorOrder = true ∧
     parseDate floorOrder.orderDate = some 36000000 ∧
     parseDate floorOrder.expectedDispatch = some (floorNow - 1) ∧
     floorNow - 1 < floorNow ∧
     hasLiveEntry [] (getCacheKey floorOrder floorNow) floorNow = false) ∧
    63 ≤ (calculateDPS floorOrder floorNow []).1 :=
  ⟨⟨by decide, by decide, by decide, by decide, by decide⟩,
   calculateDPS_overdue_floor floorOrder floorNow [] 36000000 (floorNow - 1)
     (by decide) (by decide) (by decide) (by decide) (by decide)⟩

/-- Claim C4, counterexample. In the spec's scenario (dispatch 1 h overdue,
order placed 26 h ago, delivery promised 24 h out, £1500), the delivery
window is 50 hours and the order age 26 hours, so the delivery and age
sub-scores are not 100 and the DPS is not 100. -/
theorem scenario_not_perfect :
    calculateDeliveryPromiseScore (-26 * 3600000) (some (24 * 3600000)) ≠ 100 ∧
    calculateOrderAgeScore 0 (-26 * 3600000) ≠ 100 ∧
    (calculateDPS scenarioOrder 0 []).1 ≠ 100 :=
  ⟨by with_unfolding_all decide, by with_unfolding_all decide,
   by with_unfolding_all decide⟩

/-- Claim C4, amended. For the scenario order (dispatch 1 h overdue,
`orderDate` 26 h old, `deliveryBy` 24 h out, £1500): the dispatch sub-score
is 100 and the value sub-score 100, but the delivery sub-score is 60 (the
`orderDate → deliveryBy` window is 50 h) and the age sub-score 70 (26 h
old), so the DPS is exactly 89. -/
theorem scenario_scores :
    calculateDispatchDeadlineScore 0 (-3600000) = 100 ∧
    calculateDeliveryPromiseScore (-26 * 3600000) (some (24 * 3600000)) = 60 ∧
    calculateOrderAgeScore 0 (-26 * 3600000) = 70 ∧
    calculateOrderValueScore 1500 = 100 ∧
    (calculateDPS scenarioOrder 0 []).1 = 89 :=
  ⟨by with_unfolding_all decide, by with_unfolding_all decide,
   by with_unfolding_all decide, by with_unfolding_all decide,
   by with_unfolding_all decide⟩

/-- Claim C5, counterexample. Two runs at the *same* instant (240000 ms) on the
*same* order disagree depending on what call was made earlier: an empty
history computes 74, while a history holding a call from 4 minutes earlier
(same hour bucket, within the 5-minute TTL) replays that call's score 68. -/
theorem calculateDPS_history_dependent :
    (calculateDPS stepOrder 240000 (calculateDPS stepOrder 0 []).2).1 ≠
      (calculateDPS stepOrder 240000 []).1 := by
  with_unfolding_all decide

/-- Claim C5, amended. `calculateDPS` is deterministic in `(order, now)`
*provided* the cache holds no unexpired entry for the order's
`(orderNumber, hour)` key: any two such calls agree, whatever else the two
cache states contain. -/
theorem calculateDPS_deterministic_uncached (o : Order) (now : Int)
    (c1 c2 : DPSCache)
    (h1 : hasLiveEntry c1 (getCacheKey o now) now = false)
    (h2 : hasLiveEntry c2 (getCacheKey o now) now = false) :
    (calculateDPS o now c1).1 = (calculateDPS o now c2).1 := by
  rw [calculateDPS_fst_uncached o now c1 h1, calculateDPS_fst_uncached o now c2 h2]
  by_cases hv : validateOrderForDPS o = false
  · simp [hv]
  · simp only [if_neg hv]
    exact computeAndCache_fst_indep o now c1 c2 _ _

theorem calculateDPS_deterministic_uncached_witness :
    (hasLiveEntry [] (getCacheKey stepOrder 0) 0 = false ∧
     hasLiveEntry staleCache (getCacheKey stepOrder 0) 0 = false) ∧
    (calculateDPS stepOrder 0 []).1 = (calculateDPS stepOrder 0 staleCache).1 :=
  ⟨⟨by decide, by decide⟩,
   calculateDPS_deterministic_uncached stepOrder 0 [] staleCache (by decide)
     (by decide)⟩

/-! ## Theorems: Priority Queue Manager (C6–C7) -/

theorem scorePass_length (orders : List Order) (dirty : List (Option String))
    (now : Int) (c : DPSCache) :
    (scorePass orders dirty now c).1.length = orders.length := by
  induction orders generalizing c with
  | nil => rfl
  | cons o rest ih =>
    unfold scorePass
    split <;> simp [ih]

theorem mergeSort_eq_nil {α : Type} {le : α → α → Bool} {l : List α}
    (h : l.mergeSort le = []) : l = [] := by
  have hlen := @List.length_mergeSort _ le l
  rw [h] at hlen
  exact List.eq_nil_of_length_eq_zero hlen.symm

theorem updateQueue_cached (st : QueueState) (now : Int)
    (hd : st.dirtyOrders = []) (hq : st.priorityQueue ≠ []) :
    updateQueue none st now = ⟨st.priorityQueue, st, 0⟩ := by
  simp only [updateQueue, hd]
  rw [if_pos]
  simp [hq]

theorem updateQueue_nil_orders (st : QueueState) (now : Int)
    (hd : st.dirtyOrders = []) (ho : st.orders = []) (hq : st.priorityQueue = []) :
    updateQueue none st now = ⟨[], st, 0⟩ := by
  obtain ⟨os, pq, dd, cc⟩ := st
  simp only at hd ho hq
  subst hd
  subst ho
  subst hq
  simp [updateQueue, scorePass]

/-- Loading the new orders first and then recomputing is the same as one
`updateQueue` call. -/
theorem updateQueue_eq_load (newOrders : Option (List Order)) (st : QueueState)
    (now : Int) :
    updateQueue newOrders st now =
      updateQueue none
        (match newOrders with
          | some os => { st with orders := os, dirtyOrders := os.map (·.orderNumber) }
          | none => st) now := by
  rcases newOrders with _ | os <;> rfl

theorem updateQueue_none_post (st1 : QueueState) (now : Int) :
    (updateQueue none st1 now).state.dirtyOrders = [] ∧
    (updateQueue none st1 now).state.priorityQueue =
      (updateQueue none st1 now).queue ∧
    ((updateQueue none st1 now).queue = [] →
      (updateQueue none st1 now).state.orders = []) := by
  simp only [updateQueue]
  by_cases hcond : (st1.dirtyOrders.isEmpty && !st1.priorityQueue.isEmpty) = true
  · rw [if_pos hcond]
    rcases Bool.and_eq_true_iff.1 hcond with ⟨hd, hq⟩
    refine ⟨List.isEmpty_iff.1 hd, rfl, fun hnil => ?_⟩
    have hnil2 : st1.priorityQueue = [] := hnil
    rw [hnil2] at hq
    simp at hq
  · rw [if_neg hcond]
    refine ⟨rfl, rfl, fun hnil => ?_⟩
    have hsp : (scorePass st1.orders st1.dirtyOrders now st1.calculationCache).1 = [] :=
      mergeSort_eq_nil hnil
    have hlen := scorePass_length st1.orders st1.dirtyOrders now st1.calculationCache
    rw [hsp] at hlen
    exact List.eq_nil_of_length_eq_zero hlen.symm

theorem updateQueue_post (newOrders : Option (List Order)) (st : QueueState)
    (now : Int) :
    (updateQueue newOrders st now).state.dirtyOrders = [] ∧
    (updateQueue newOrders st now).state.priorityQueue =
      (updateQueue newOrders st now).queue ∧
    ((updateQueue newOrders st now).queue = [] →
      (updateQueue newOrders st now).state.orders = []) := by
  rw [updateQueue_eq_load]
  exact updateQueue_none_post _ now

/-- Claim C6. `updateQueue` is idempotent: immediately after any call, a
second call with no new orders (hence an empty dirty set) returns the
identical ranking with identical scores, leaves the state untouched, and
performs zero DPS recomputations. -/
theorem updateQueue_idempotent (newOrders : Option (List Order)) (st : QueueState)
    (now nextNow : Int) :
    (updateQueue none (updateQueue newOrders st now).state nextNow).queue =
      (updateQueue newOrders st now).queue ∧
    (updateQueue none (updateQueue newOrders st now).state nextNow).scored = 0 ∧
    (updateQueue none (updateQueue newOrders st now).state nextNow).state =
      (updateQueue newOrders st now).state := by
  obtain ⟨hd, hpq, hord⟩ := updateQueue_post newOrders st now
  by_cases hq : (updateQueue newOrders st now).state.priorityQueue = []
  · have hr := updateQueue_nil_orders (updateQueue newOrders st now).state nextNow hd
      (hord (hpq ▸ hq)) hq
    rw [hr]
    exact ⟨by rw [← hpq, hq], rfl, rfl⟩
  · have hr := updateQueue_cached (updateQueue newOrders st now).state nextNow hd hq
    rw [hr]
    exact ⟨hpq, rfl, rfl⟩

theorem queueLeB_iff (a b : Order) : queueLeB a b = true ↔ queueLE a b := by
  simp only [queueLeB, decide_eq_true_eq, cmpOrders, queueLE]
  split_ifs with h1 h2 h3
  · constructor
    · intro h
      exact Or.inl (lt_of_le_of_ne (by linarith) h1)
    · rintro (h | ⟨he, _⟩)
      · linarith
      · exact absurd he h1
  · have he : dpsD b = dpsD a := not_ne_iff.1 h1
    cases ha : a.isOverdue <;> cases hb : b.isOverdue <;>
      rw [ha, hb] at h2 <;> simp [boolVal, he, ha, hb] at * <;> try norm_num
  · have he : dpsD b = dpsD a := not_ne_iff.1 h1
    have ho : a.isOverdue = b.isOverdue := not_ne_iff.1 h2
    constructor
    · intro h
      exact Or.inr ⟨he, Or.inr ⟨ho, Or.inl (lt_of_le_of_ne (by linarith) h3)⟩⟩
    · rintro (h | ⟨_, (⟨hat, hbf⟩ | ⟨_, (h | ⟨hv, _⟩)⟩)⟩)
      · exact absurd he h.ne
      · rw [hat, hbf] at ho
        exact absurd ho (by simp)
      · linarith
      · exact absurd hv h3
  · have he : dpsD b = dpsD a := not_ne_iff.1 h1
    have ho : a.isOverdue = b.isOverdue := not_ne_iff.1 h2
    have hv : jsOrderValue b.orderTotal = jsOrderValue a.orderTotal := not_ne_iff.1 h3
    constructor
    · intro h
      have hd : dateVal a.orderDate ≤ dateVal b.orderDate := by
        have : ((dateVal a.orderDate - dateVal b.orderDate : Int) : Rat) ≤ 0 := h
        have h0 : (dateVal a.orderDate - dateVal b.orderDate : Int) ≤ 0 := by
          exact_mod_cast this
        omega
      exact Or.inr ⟨he, Or.inr ⟨ho, Or.inr ⟨hv, hd⟩⟩⟩
    · rintro (h | ⟨_, (⟨hat, hbf⟩ | ⟨_, (h | ⟨_, hd⟩)⟩)⟩)
      · exact absurd he h.ne
      · rw [hat, hbf] at ho
        exact absurd ho (by simp)
      · exact absurd hv h.ne
      · have h0 : (dateVal a.orderDate - dateVal b.orderDate : Int) ≤ 0 := by omega
        exact_mod_cast Int.cast_nonpos.2 h0

theorem queueLE_trans {a b c : Order} (hab : queueLE a b) (hbc : queueLE b c) :
    queueLE a c := by
  unfold queueLE at *
  rcases hab with h | ⟨he1, hr1⟩
  · rcases hbc with h2 | ⟨he2, _⟩
    · exact Or.inl (lt_trans h2 h)
    · exact Or.inl (he2 ▸ h)
  · rcases hbc with h2 | ⟨he2, hr2⟩
    · exact Or.inl (he1 ▸ h2)
    · refine Or.inr ⟨by rw [he2, he1], ?_⟩
      rcases hr1 with ⟨hat, hbf⟩ | ⟨ho1, hv1⟩
      · rcases hr2 with ⟨hbt, _⟩ | ⟨ho2, _⟩
        · rw [hbt] at hbf
          exact absurd hbf (by simp)
        · exact Or.inl ⟨hat, ho2 ▸ hbf⟩
      · rcases hr2 with ⟨hbt, hcf⟩ | ⟨ho2, hv2⟩
        · exact Or.inl ⟨ho1.trans hbt, hcf⟩
        · refine Or.inr ⟨ho1.trans ho2, ?_⟩
          rcases hv1 with h | ⟨hveq1, hd1⟩
          · rcases hv2 with h2 | ⟨hveq2, _⟩
            · exact Or.inl (lt_trans h2 h)
            · exact Or.inl (hveq2 ▸ h)
          · rcases hv2 with h2 | ⟨hveq2, hd2⟩
            · exact Or.inl (hveq1 ▸ h2)
            · exact Or.inr ⟨by rw [hveq2, hveq1], le_trans hd1 hd2⟩

theorem queueLeB_trans (a b c : Order) (hab : queueLeB a b = true)
    (hbc : queueLeB b c = true) : queueLeB a c = true :=
  (queueLeB_iff a c).2 (queueLE_trans ((queueLeB_iff a b).1 hab) ((queueLeB_iff b c).1 hbc))

theorem cmpOrders_neg (a b : Order) : cmpOrders b a = -cmpOrders a b := by
  unfold cmpOrders
  by_cases h1 : dpsD b ≠ dpsD a
  · rw [if_pos h1, if_pos (Ne.symm h1)]
    ring
  · rw [if_neg h1, if_neg (fun hh => h1 (Ne.symm hh))]
    by_cases h2 : a.isOverdue ≠ b.isOverdue
    · rw [if_pos h2, if_pos (Ne.symm h2)]
      push_cast
      ring
    · rw [if_neg h2, if_neg (fun hh => h2 (Ne.symm hh))]
      by_cases h3 : jsOrderValue b.orderTotal ≠ jsOrderValue a.orderTotal
      · rw [if_pos h3, if_pos (Ne.symm h3)]
        ring
      · rw [if_neg h3, if_neg (fun hh => h3 (Ne.symm hh))]
        push_cast
        ring

theorem queueLeB_total (a b : Order) : (queueLeB a b || queueLeB b a) = true := by
  simp only [queueLeB, Bool.or_eq_true, decide_eq_true_eq]
  rcases le_total (cmpOrders a b) 0 with h | h
  · exact Or.inl h
  · refine Or.inr ?_
    rw [cmpOrders_neg]
    linarith

theorem updateQueue_none_sorted (st1 : QueueState) (now : Int)
    (h : List.Chain' queueLE st1.priorityQueue) :
    List.Chain' queueLE (updateQueue none st1 now).queue := by
  simp only [updateQueue]
  by_cases hcond : (st1.dirtyOrders.isEmpty && !st1.priorityQueue.isEmpty) = true
  · rw [if_pos hcond]
    exact h
  · rw [if_neg hcond]
    have hp := List.sorted_mergeSort queueLeB_trans queueLeB_total
      (scorePass st1.orders st1.dirtyOrders now st1.calculationCache).1
    exact (hp.imp (fun hab => (queueLeB_iff _ _).1 hab)).chain'

/-- Claim C7. `updateQueue` preserves (and on every recompute establishes) the
sorting invariant: all adjacent pairs of the produced ranking satisfy
`queueLE` — descending `dpsScore`, and on equal scores overdue orders first,
then higher `orderTotal`, then older `orderDate`.  The hypothesis (the
previous ranking already sorted) holds inductively from the constructor's
empty ranking. -/
theorem updateQueue_sorted (newOrders : Option (List Order)) (st : QueueState)
    (now : Int) (h : List.Chain' queueLE st.priorityQueue) :
    List.Chain' queueLE (updateQueue newOrders st now).queue := by
  rw [updateQueue_eq_load]
  apply updateQueue_none_sorted
  rcases newOrders with _ | os <;> exact h

theorem updateQueue_sorted_witness :
    List.Chain' queueLE
      (updateQueue (some [plainOrder, plainOrder2, floorOrder]) initialState 0).queue :=
  updateQueue_sorted (some [plainOrder, plainOrder2, floorOrder]) initialState 0
    (by simp [initialState])

end DispatchQueue

/-! ## Theorems: Batch Optimizer (C8) -/

namespace BatchOptimizer

theorem mem_filterEligibleOrders {t : BOrder} {pool : List BOrder} {now : Int}
    {o : BOrder} (h : o ∈ filterEligibleOrders t pool now) :
    optGtB o.urgencyScore config.criticalUrgencyScore = false ∧
    o.orderNumber ≠ t.orderNumber := by
  unfold filterEligibleOrders at h
  have hp := List.of_mem_filter h
  simp only [Bool.and_eq_true, Bool.not_eq_true'] at hp
  obtain ⟨⟨⟨⟨hnum, hurg⟩, _⟩, _⟩, _⟩ := hp
  refine ⟨hurg, fun hEq => ?_⟩
  rw [hEq] at hnum
  simp at hnum

theorem batchOK_take {t : BOrder} {elig xs : List BOrder} (hne : xs ≠ [])
    (hsub : ∀ o ∈ xs, o ∈ elig) (ty pr : String) (e : Efficiency) :
    BatchOK t elig ⟨ty, (t :: xs).take config.maxBatchSize, pr, e⟩ := by
  refine ⟨xs.take 7, rfl, ?_, ?_, ?_⟩
  · cases xs with
    | nil => exact absurd rfl hne
    | cons a l => simp
  · intro o ho
    exact hsub o (List.take_subset 7 xs ho)
  · exact List.length_take_le _ _

theorem analyzeSKUBatches_ok {t : BOrder} {elig : List BOrder} {b : BatchCand}
    (hb : b ∈ analyzeSKUBatches t elig) : BatchOK t elig b := by
  simp only [analyzeSKUBatches] at hb
  rcases List.mem_append.1 hb with h | h
  · split at h
    · simp at h
    · split at h
      · rw [List.mem_singleton] at h
        subst h
        refine batchOK_take ?_ (fun o ho => List.mem_of_mem_filter ho) _ _ _
        simp_all [List.isEmpty_iff]
      · simp at h
  · split at h
    · split at h
      · simp at h
      · split at h
        · rw [List.mem_singleton] at h
          subst h
          refine batchOK_take ?_ ?_ _ _ _
          · simp_all [List.isEmpty_iff]
          · intro o ho
            exact List.mem_of_mem_filter ho
        · simp at h
    · simp at h

theorem analyzeGeographicBatches_ok {t : BOrder} {elig : List BOrder} {b : BatchCand}
    (hb : b ∈ analyzeGeographicBatches t elig) : BatchOK t elig b := by
  simp only [analyzeGeographicBatches] at hb
  rcases List.mem_append.1 hb with h | h
  · split at h
    · simp at h
    · split at h
      · rw [List.mem_singleton] at h
        subst h
        refine batchOK_take ?_ (fun o ho => List.mem_of_mem_filter ho) _ _ _
        simp_all [List.isEmpty_iff]
      · simp at h
  · split at h
    · simp at h
    · split at h
      · rw [List.mem_singleton] at h
        subst h
        refine batchOK_take ?_ (fun o ho => List.mem_of_mem_filter ho) _ _ _
        simp_all [List.isEmpty_iff]
      · simp at h

theorem analyzeUrgencyBatches_ok {t : BOrder} {elig : List BOrder} {b : BatchCand}
    (hb : b ∈ analyzeUrgencyBatches t elig) : BatchOK t elig b := by
  simp only [analyzeUrgencyBatches] at hb
  split at hb
  · simp at hb
  · split at hb
    · rw [List.mem_singleton] at hb
      subst hb
      refine batchOK_take ?_ (fun o ho => List.mem_of_mem_filter ho) _ _ _
      simp_all [List.isEmpty_iff]
    · simp at hb

theorem analyzeValueBatches_ok {t : BOrder} {elig : List BOrder} {b : BatchCand}
    (hb : b ∈ analyzeValueBatches t elig) : BatchOK t elig b := by
  simp only [analyzeValueBatches] at hb
  split at hb
  · split at hb
    · simp at hb
    · split at hb
      · rw [List.mem_singleton] at hb
        subst hb
        refine batchOK_take ?_ (fun o ho => List.mem_of_mem_filter ho) _ _ _
        simp_all [List.isEmpty_iff]
      · simp at hb
  · simp at hb

theorem createHybridBatches_ok {t : BOrder} {elig : List BOrder}
    {skuB geoB : List BatchCand}
    (hs : ∀ b ∈ skuB, BatchOK t elig b) (hg : ∀ b ∈ geoB, BatchOK t elig b)
    {b : BatchCand} (hb : b ∈ createHybridBatches skuB geoB) : BatchOK t elig b := by
  simp only [createHybridBatches] at hb
  rcases List.mem_flatMap.1 hb with ⟨sb, hsb, hb2⟩
  rcases List.mem_flatMap.1 hb2 with ⟨gb, hgb, hb3⟩
  obtain ⟨ys, hso, _, _, _⟩ := hs sb hsb
  obtain ⟨zs, hgo, _, hzsub, hglen⟩ := hg gb hgb
  split at hb3
  · split at hb3
    · rw [List.mem_singleton] at hb3
      subst hb3
      rename_i hlen3 _
      have hpt : (List.map (fun o => o.orderNumber) sb.orders).contains
          t.orderNumber = true := by
        rw [hso]
        simp
      have hfe : findOrderIntersection sb.orders gb.orders =
          t :: zs.filter
            (fun o => (List.map (fun x => x.orderNumber) sb.orders).contains
              o.orderNumber) := by
        unfold findOrderIntersection
        rw [hgo, List.filter_cons_of_pos]
        exact hpt
      refine ⟨_, hfe, ?_, ?_, ?_⟩
      · rw [hfe] at hlen3
        intro hnil
        rw [hnil] at hlen3
        simp at hlen3
      · intro o ho
        exact hzsub o (List.mem_of_mem_filter ho)
      · show (findOrderIntersection sb.orders gb.orders).length ≤ config.maxBatchSize
        calc (findOrderIntersection sb.orders gb.orders).length
            ≤ gb.orders.length := by
              unfold findOrderIntersection
              exact List.length_filter_le _ _
          _ ≤ config.maxBatchSize := hglen
    · simp at hb3
  · simp at hb3

theorem rankBatches_subset {l : List BatchCand} {b : BatchCand}
    (hb : b ∈ rankBatchesByEfficiency l) : b ∈ l := by
  unfold rankBatchesByEfficiency at hb
  exact List.mem_of_mem_filter (List.mem_mergeSort.1 (List.take_subset 10 _ hb))

theorem mem_generateBatchRecommendations {l : List BatchCand} {r : Recommendation}
    (hr : r ∈ generateBatchRecommendations l) :
    ∃ b ∈ l, r.orders = b.orders.map projectOrder := by
  unfold generateBatchRecommendations at hr
  rcases List.mem_map.1 hr with ⟨ib, hib, heq⟩
  refine ⟨ib.2, ?_, ?_⟩
  · have hm : ib.2 ∈ l.enum.map Prod.snd := List.mem_map_of_mem _ hib
    rwa [List.enum_map_snd] at hm
  · rw [← heq]

/-- Claim C8, counterexample. The eligibility filter screens *candidates* for
the critical-urgency ceiling but never the target itself: with a target of
urgency 90 (> 85) sharing a SKU with two calm orders,
`findBatchOpportunities` returns recommendations containing an order above
the ceiling — the target. -/
theorem critical_target_batched :
    optGtB criticalTarget.urgencyScore 85 = true ∧
    ((findBatchOpportunities criticalTarget [calmOrder1, calmOrder2]
        0 []).1.opportunities.any
      (fun r => r.orders.any (fun o => optGtB o.urgencyScore 85))) = true :=
  ⟨by with_unfolding_all decide, by with_unfolding_all decide⟩

/-- The analysis cache defeats the batch-shape guarantees across targets:
its key is the sorted union of the target's and the pool's order numbers, so
after analyzing target T over pool {P1, P2}, the query with target P1 over
pool {T, P2} hits the same key and replays T's result verbatim — here
containing the non-target order T with urgency 90 > 85. -/
theorem analysisCache_replays_other_target :
    generateCacheKey calmOrder1 [criticalTarget, calmOrder2] =
      generateCacheKey criticalTarget [calmOrder1, calmOrder2] ∧
    ((findBatchOpportunities calmOrder1 [criticalTarget, calmOrder2] 0
        (findBatchOpportunities criticalTarget [calmOrder1, calmOrder2]
          0 []).2).1.opportunities.any
      (fun r => r.orders.any (fun o =>
        !(o.orderNumber == calmOrder1.orderNumber) &&
          optGtB o.urgencyScore 85))) = true :=
  ⟨by with_unfolding_all decide, by with_unfolding_all decide⟩

/-- Claim C8, amended. When the analysis cache holds no entry for the
query's cache key (so the result is computed fresh rather than replayed from
a possibly different target's earlier query — see
`analysisCache_replays_other_target`), every recommendation returned by
`findBatchOpportunities` contains the target order, at least one other
order, and at most the configured maximum of 8 orders; and every
*non-target* member respects the critical-urgency ceiling of 85 (the target
itself is never screened, as the counterexample shows). -/
theorem findBatchOpportunities_shape (t : BOrder) (pool : List BOrder) (now : Int)
    (cache : AnalysisCache) (r : Recommendation)
    (hc : analysisCacheFind cache (generateCacheKey t pool) = none)
    (hr : r ∈ (findBatchOpportunities t pool now cache).1.opportunities) :
    t.orderNumber ∈ r.orders.map RecOrder.orderNumber ∧
    2 ≤ r.orders.length ∧ r.orders.length ≤ 8 ∧
    (∃ o ∈ r.orders, o.orderNumber ≠ t.orderNumber) ∧
    (∀ o ∈ r.orders, o.orderNumber ≠ t.orderNumber →
      optGtB o.urgencyScore 85 = false) := by
  simp only [findBatchOpportunities] at hr
  split at hr
  · simp at hr
  · split at hr
    · rename_i cached heq
      rw [hc] at heq
      exact absurd heq (by simp)
    · split at hr
      · simp at hr
      · split at hr
        · simp at hr
        · obtain ⟨b, hbmem, horders⟩ := mem_generateBatchRecommendations hr
          have hball : BatchOK t (filterEligibleOrders t pool now) b := by
            have h1 := rankBatches_subset hbmem
            rcases List.mem_append.1 h1 with h2 | h2
            · rcases List.mem_append.1 h2 with h3 | h3
              · rcases List.mem_append.1 h3 with h4 | h4
                · rcases List.mem_append.1 h4 with h5 | h5
                  · exact analyzeSKUBatches_ok h5
                  · exact analyzeGeographicBatches_ok h5
                · exact analyzeUrgencyBatches_ok h4
              · exact analyzeValueBatches_ok h3
            · exact createHybridBatches_ok (fun x hx => analyzeSKUBatches_ok hx)
                (fun x hx => analyzeGeographicBatches_ok hx) h2
          obtain ⟨zs, ho, hne, hsub, hlen⟩ := hball
          have h85 : config.criticalUrgencyScore = 85 := rfl
          have hmax : config.maxBatchSize = 8 := rfl
          rw [ho] at horders hlen
          refine ⟨?_, ?_, ?_, ?_, ?_⟩
          · rw [horders]
            simp [projectOrder]
          · rw [horders]
            simp only [List.map_cons, List.length_cons, List.length_map]
            have : 0 < zs.length := List.length_pos.2 hne
            omega
          · rw [horders]
            rw [hmax] at hlen
            simpa using hlen
          · cases zs with
            | nil => exact absurd rfl hne
            | cons z l =>
              refine ⟨projectOrder z, ?_, ?_⟩
              · rw [horders]
                simp
              · have hz := mem_filterEligibleOrders (hsub z (by simp))
                exact hz.2
          · intro o hom hne2
            rw [horders] at hom
            rcases List.mem_map.1 hom with ⟨src, hsrc, hproj⟩
            rcases List.mem_cons.1 hsrc with hsrc | hsrc
            · exfalso
              apply hne2
              rw [← hproj, hsrc]
              rfl
            · have hz := mem_filterEligibleOrders (hsub src hsrc)
              rw [← hproj]
              rw [← h85]
              exact hz.1

theorem findBatchOpportunities_shape_witness :
    (analysisCacheFind []
       (generateCacheKey witnessTarget [witnessOrder1, witnessOrder2]) = none ∧
     witnessRec ∈ (findBatchOpportunities witnessTarget
       [witnessOrder1, witnessOrder2] 0 []).1.opportunities) ∧
    (witnessTarget.orderNumber ∈ witnessRec.orders.map RecOrder.orderNumber ∧
     2 ≤ witnessRec.orders.length ∧ witnessRec.orders.length ≤ 8 ∧
     (∃ o ∈ witnessRec.orders, o.orderNumber ≠ witnessTarget.orderNumber) ∧
     (∀ o ∈ witnessRec.orders, o.orderNumber ≠ witnessTarget.orderNumber →
       optGtB o.urgencyScore 85 = false)) :=
  ⟨⟨rfl, by with_unfolding_all decide⟩,
   findBatchOpportunities_shape witnessTarget [witnessOrder1, witnessOrder2] 0 []
     witnessRec rfl (by with_unfolding_all decide)⟩

end BatchOptimizer

/-! ## Theorems: Pack Session Tracker (C9–C10) -/

namespace PackWorkflow

/-- Claim C9. `updatePackStatus` rejects every transition not in the allowed
table with an explicit invalid-transition error and leaves the workflow
state unchanged; in particular PENDING→PACKED is not in the table, and no
transition out of DISPATCHED is. -/
theorem updatePackStatus_rejects_invalid (wf : WorkflowState) (orderNumber : String)
    (newStatus : PackState) (notes : String) (now : Int) (session : PackSession)
    (hs : getAssoc wf.packSessions orderNumber = some session)
    (hinv : isValidStateTransition session.status newStatus = false) :
    (updatePackStatus wf orderNumber newStatus notes now).1 =
      .error (.invalidTransition session.status newStatus) ∧
    (updatePackStatus wf orderNumber newStatus notes now).2 = wf ∧
    isValidStateTransition .pending .packed = false ∧
    (∀ s, isValidStateTransition .dispatched s = false) := by
  have hmain : updatePackStatus wf orderNumber newStatus notes now =
      (.error (.invalidTransition session.status newStatus), wf) := by
    simp only [updatePackStatus, hs]
    rw [if_pos hinv]
  exact ⟨by rw [hmain], by rw [hmain], rfl, fun s => by cases s <;> rfl⟩

theorem updatePackStatus_rejects_invalid_witness :
    (getAssoc pendingWorkflow.packSessions "O1" = some pendingSession ∧
     isValidStateTransition pendingSession.status PackState.packed = false) ∧
    ((updatePackStatus pendingWorkflow "O1" .packed "" 100).1 =
       .error (.invalidTransition pendingSession.status .packed) ∧
     (updatePackStatus pendingWorkflow "O1" .packed "" 100).2 = pendingWorkflow ∧
     isValidStateTransition .pending .packed = false ∧
     (∀ s, isValidStateTransition .dispatched s = false)) :=
  ⟨⟨by decide, by decide⟩,
   updatePackStatus_rejects_invalid pendingWorkflow "O1" .packed "" 100
     pendingSession (by decide) (by decide)⟩

theorem recordPackingMetrics_StrongInv_step (m : WMetrics) (o : String) (d : Rat)
    (now : Int) (h : m = initWMetrics ∨ StrongMetricsInv m) :
    StrongMetricsInv (recordPackingMetrics m o d now) := by
  rcases h with h | h
  · subst h
    refine ⟨by simp [recordPackingMetrics, initWMetrics], rfl, d, rfl, ?_, ?_⟩
    · simp [recordPackingMetrics, initWMetrics]
    · show (0 : Rat) + d ≤ max (initWMetrics.worstTime) d * ((0 + 1 : Nat) : Rat)
      have hd : d ≤ max initWMetrics.worstTime d := le_max_right _ _
      push_cast
      linarith
  · obtain ⟨hc, _, b, hb, hbl, hbu⟩ := h
    have hc0 : (0 : Rat) ≤ (m.packCount : Rat) := Nat.cast_nonneg _
    refine ⟨by simp [recordPackingMetrics], rfl, ?_⟩
    refine ⟨min b d, by simp [recordPackingMetrics, hb], ?_, ?_⟩
    · show min b d * (((m.packCount + 1 : Nat)) : Rat) ≤ m.totalPackTime + d
      have h1 : min b d * (m.packCount : Rat) ≤ b * (m.packCount : Rat) :=
        mul_le_mul_of_nonneg_right (min_le_left b d) hc0
      have h2 : min b d ≤ d := min_le_right b d
      push_cast
      nlinarith
    · show m.totalPackTime + d ≤
        max m.worstTime d * (((m.packCount + 1 : Nat)) : Rat)
      have h1 : m.worstTime * (m.packCount : Rat) ≤
          max m.worstTime d * (m.packCount : Rat) :=
        mul_le_mul_of_nonneg_right (le_max_left _ _) hc0
      have h2 : d ≤ max m.worstTime d := le_max_right _ _
      push_cast
      nlinarith

theorem find?_filter_ne {α : Type} (l : List (String × α)) (k w : String)
    (h : w ≠ k) :
    (l.filter (fun e => !(e.1 == k))).find? (fun e => e.1 == w) =
      l.find? (fun e => e.1 == w) := by
  induction l with
  | nil => rfl
  | cons e es ih =>
    by_cases he : (e.1 == k) = true
    · have hek : e.1 = k := by simpa using he
      have hew2 : (e.1 == w) = false := by
        simp [hek]
        exact fun hh => h hh.symm
      simp [List.filter_cons, List.find?_cons, he, hew2, ih]
    · by_cases hw : (e.1 == w) = true
      · simp [List.filter_cons, List.find?_cons, he, hw]
      · simp only [Bool.not_eq_true] at hw
        simp [List.filter_cons, List.find?_cons, he, hw, ih]

theorem getAssoc_setAssoc_self {α : Type} (l : List (String × α)) (k : String)
    (v : α) : getAssoc (setAssoc l k v) k = some v := by
  unfold getAssoc setAssoc
  rw [List.find?_cons_of_pos _ (by simp)]
  rfl

theorem getAssoc_setAssoc_ne {α : Type} (l : List (String × α)) (k w : String)
    (v : α) (h : w ≠ k) : getAssoc (setAssoc l k v) w = getAssoc l w := by
  unfold getAssoc setAssoc
  rw [List.find?_cons_of_neg _ (by simp; exact fun hh => h hh.symm)]
  rw [find?_filter_ne l k w h]

theorem recordPackingMetricsMap_inv (ms : List (String × WMetrics)) (o : String)
    (d : Rat) (worker : String) (now : Int)
    (h : ∀ w m, getAssoc ms w = some m → StrongMetricsInv m) :
    ∀ w m, getAssoc (recordPackingMetricsMap ms o d worker now) w = some m →
      StrongMetricsInv m := by
  intro w m hm
  unfold recordPackingMetricsMap at hm
  by_cases hw : w = worker
  · subst hw
    rw [getAssoc_setAssoc_self] at hm
    have hm2 := Option.some_inj.1 hm
    rw [← hm2]
    apply recordPackingMetrics_StrongInv_step
    rcases hg : getAssoc ms w with _ | m0
    · exact Or.inl rfl
    · exact Or.inr (h w m0 hg)
  · rw [getAssoc_setAssoc_ne _ _ _ _ hw] at hm
    exact h w m hm

theorem runMetrics_inv_aux (calls : List (String × Rat × String × Int)) :
    ∀ ms : List (String × WMetrics),
      (∀ w m, getAssoc ms w = some m → StrongMetricsInv m) →
      ∀ w m, getAssoc (calls.foldl
          (fun ms c => recordPackingMetricsMap ms c.2.2.1 c.2.1 c.1 c.2.2.2) ms)
        w = some m → StrongMetricsInv m := by
  induction calls with
  | nil => exact fun ms h => h
  | cons c cs ih =>
    intro ms h
    exact ih _ (recordPackingMetricsMap_inv ms _ _ _ _ h)

/-- Claim C10. After any sequence of `recordPackingMetrics` calls, every
worker's accumulator satisfies `averagePackTime = totalPackTime / packCount`,
and once at least one pack is recorded, `bestTime ≤ averagePackTime ≤
worstTime`. -/
theorem workerMetrics_invariant (calls : List (String × Rat × String × Int))
    (w : String) (m : WMetrics) (h : getAssoc (runMetrics calls) w = some m) :
    m.averagePackTime = m.totalPackTime / (m.packCount : Rat) ∧
    (1 ≤ m.packCount → ∃ b, m.bestTime = some b ∧
      b ≤ m.averagePackTime ∧ m.averagePackTime ≤ m.worstTime) := by
  have hstrong : StrongMetricsInv m := by
    apply runMetrics_inv_aux calls [] ?_ w m h
    intro w m hm
    simp [getAssoc] at hm
  obtain ⟨hc, havg, b, hb, hbl, hbu⟩ := hstrong
  have hcpos : (0 : Rat) < (m.packCount : Rat) := by exact_mod_cast Nat.pos_of_ne_zero (by omega)
  refine ⟨havg, fun _ => ⟨b, hb, ?_, ?_⟩⟩
  · rw [havg, le_div_iff₀ hcpos]
    exact hbl
  · rw [havg, div_le_iff₀ hcpos]
    exact hbu

theorem workerMetrics_invariant_witness :
    getAssoc (runMetrics [("W", 5, "A", 0), ("W", 3, "B", 1)]) "W" =
      some twoPackMetrics ∧
    (twoPackMetrics.averagePackTime =
       twoPackMetrics.totalPackTime / (twoPackMetrics.packCount : Rat) ∧
     (1 ≤ twoPackMetrics.packCount → ∃ b, twoPackMetrics.bestTime = some b ∧
       b ≤ twoPackMetrics.averagePackTime ∧
       twoPackMetrics.averagePackTime ≤ twoPackMetrics.worstTime)) :=
  ⟨by with_unfolding_all decide,
   workerMetrics_invariant [("W", 5, "A", 0), ("W", 3, "B", 1)] "W" twoPackMetrics
     (by with_unfolding_all decide)⟩

end PackWorkflow

end OrderIntel
